import Mathlib

/-!
# Mole-Manager: metrics collection, health scoring and gateway task store

A shallow embedding of

* `windows/cmd/status/main.go`: `MetricsSnapshot`, `Collector.Collect`,
  `calculateHealthScore`, `model.Init`, `model.Update`;
* `cmd/gateway/main.go`: `taskStore.add`, `taskStore.get`;
* the ring buffer exercised by `cmd/status/metrics_test.go`.

Go `float64`/`float32` percentages are taken as exact rationals, Go `int` values as
integers (no value computed here leaves the 64-bit range), slices as lists and
`nil` slices as the empty list.
-/

namespace Mole

/-! ## Data model (`windows/cmd/status/main.go`, lines 39-98) -/

/-- Go `DiskInfo`. -/
structure DiskInfo where
  Device : String
  Mountpoint : String
  Total : Nat
  Used : Nat
  Free : Nat
  UsedPercent : ℚ
  Fstype : String
  deriving DecidableEq

/-- Go `NetworkInfo`. -/
structure NetworkInfo where
  Name : String
  BytesSent : Nat
  BytesRecv : Nat
  PacketsSent : Nat
  PacketsRecv : Nat
  deriving DecidableEq

/-- Go `ProcessInfo`. -/
structure ProcessInfo where
  PID : Int
  Name : String
  CPU : ℚ
  Memory : ℚ
  deriving DecidableEq

/-- Go `MetricsSnapshot`; `CollectedAt` and `Uptime` are counted in nanoseconds. -/
structure MetricsSnapshot where
  CollectedAt : Int
  HealthScore : Int
  HealthMessage : String
  Hostname : String
  OS : String
  Platform : String
  Uptime : Int
  CPUModel : String
  CPUCores : Int
  CPUPercent : ℚ
  CPUPerCore : List ℚ
  MemTotal : Nat
  MemUsed : Nat
  MemPercent : ℚ
  SwapTotal : Nat
  SwapUsed : Nat
  SwapPercent : ℚ
  Disks : List DiskInfo
  Networks : List NetworkInfo
  TopProcesses : List ProcessInfo
  deriving DecidableEq

/-- The zero value of `MetricsSnapshot` (`var snapshot MetricsSnapshot`). -/
def zeroSnapshot : MetricsSnapshot :=
  { CollectedAt := 0, HealthScore := 0, HealthMessage := "", Hostname := "", OS := "",
    Platform := "", Uptime := 0, CPUModel := "", CPUCores := 0, CPUPercent := 0,
    CPUPerCore := [], MemTotal := 0, MemUsed := 0, MemPercent := 0, SwapTotal := 0,
    SwapUsed := 0, SwapPercent := 0, Disks := [], Networks := [], TopProcesses := [] }

/-! ## `calculateHealthScore` (lines 293-352) -/

/-- The running state of `calculateHealthScore`: the local `score` and the slice `issues`. -/
abbrev ScoreState := Int × List String

/-- Lines 297-304: the CPU penalty. -/
def cpuStep (s : MetricsSnapshot) (st : ScoreState) : ScoreState :=
  if s.CPUPercent > 90 then (st.1 - 30, st.2 ++ ["High CPU"])
  else if s.CPUPercent > 70 then (st.1 - 15, st.2 ++ ["Elevated CPU"])
  else st

/-- Lines 306-313: the memory penalty. -/
def memStep (s : MetricsSnapshot) (st : ScoreState) : ScoreState :=
  if s.MemPercent > 90 then (st.1 - 25, st.2 ++ ["High Memory"])
  else if s.MemPercent > 80 then (st.1 - 12, st.2 ++ ["Elevated Memory"])
  else st

/-- Lines 315-326: `for _, d := range s.Disks` with a `break` in both branches;
`fmt.Sprintf("Disk %s Critical", d.Device)` is string concatenation. -/
def diskLoop : List DiskInfo → ScoreState → ScoreState
  | [], st => st
  | d :: ds, st =>
    if d.UsedPercent > 95 then (st.1 - 20, st.2 ++ ["Disk " ++ d.Device ++ " Critical"])
    else if d.UsedPercent > 85 then (st.1 - 10, st.2 ++ ["Disk " ++ d.Device ++ " Low"])
    else diskLoop ds st

/-- Lines 328-332: the swap penalty. -/
def swapStep (s : MetricsSnapshot) (st : ScoreState) : ScoreState :=
  if s.SwapPercent > 80 then (st.1 - 10, st.2 ++ ["High Swap"]) else st

/-- Lines 334-336: `if score < 0 { score = 0 }`. -/
def clampScore (score : Int) : Int := if score < 0 then 0 else score

/-- Lines 338-349: the message; `strings.Join(issues, ", ")` is `String.intercalate`. -/
def healthMessage (score : Int) (issues : List String) : String :=
  if issues.length > 0 then ", ".intercalate issues
  else if score ≥ 90 then "Excellent"
  else if score ≥ 70 then "Good"
  else if score ≥ 50 then "Fair"
  else "Poor"

/-- The state after the four penalty blocks, starting from `score := 100`, `issues := nil`. -/
def penalties (s : MetricsSnapshot) : ScoreState :=
  swapStep s (diskLoop s.Disks (memStep s (cpuStep s (100, []))))

/-- Go `calculateHealthScore`. -/
def calculateHealthScore (s : MetricsSnapshot) : Int × String :=
  let st := penalties s
  let score := clampScore st.1
  (score, healthMessage score st.2)

/-! ### The scoring table of the specification -/

/-- CPU row of the table: 30 above 90, else 15 above 70, else 0. -/
def specCpuPenalty (s : MetricsSnapshot) : Int :=
  if s.CPUPercent > 90 then 30 else if s.CPUPercent > 70 then 15 else 0

/-- Memory row of the table: 25 above 90, else 12 above 80, else 0. -/
def specMemPenalty (s : MetricsSnapshot) : Int :=
  if s.MemPercent > 90 then 25 else if s.MemPercent > 80 then 12 else 0

/-- The first disk in scan order whose used-percent exceeds 85. -/
def firstBreachingDisk (disks : List DiskInfo) : Option DiskInfo :=
  disks.find? (fun d => decide (d.UsedPercent > 85))

/-- Disk rows of the table, read off the first breaching disk. -/
def specDiskPenalty (s : MetricsSnapshot) : Int :=
  match firstBreachingDisk s.Disks with
  | some d => if d.UsedPercent > 95 then 20 else 10
  | none => 0

/-- Swap row of the table: 10 above 80, else 0. -/
def specSwapPenalty (s : MetricsSnapshot) : Int :=
  if s.SwapPercent > 80 then 10 else 0

/-- CPU label of the table. -/
def specCpuLabel (s : MetricsSnapshot) : Option String :=
  if s.CPUPercent > 90 then some "High CPU"
  else if s.CPUPercent > 70 then some "Elevated CPU" else none

/-- Memory label of the table. -/
def specMemLabel (s : MetricsSnapshot) : Option String :=
  if s.MemPercent > 90 then some "High Memory"
  else if s.MemPercent > 80 then some "Elevated Memory" else none

/-- Disk label of the table, naming the device of the first breaching disk. -/
def specDiskLabel (s : MetricsSnapshot) : Option String :=
  (firstBreachingDisk s.Disks).map fun d =>
    if d.UsedPercent > 95 then "Disk " ++ d.Device ++ " Critical"
    else "Disk " ++ d.Device ++ " Low"

/-- Swap label of the table. -/
def specSwapLabel (s : MetricsSnapshot) : Option String :=
  if s.SwapPercent > 80 then some "High Swap" else none

/-- Labels of the fired rules in the evaluation order CPU, Memory, Disk, Swap. -/
def specFiredLabels (s : MetricsSnapshot) : List String :=
  (specCpuLabel s).toList ++ (specMemLabel s).toList ++ (specDiskLabel s).toList
    ++ (specSwapLabel s).toList

/-- Some penalty rule fires on the snapshot. -/
def ruleFires (s : MetricsSnapshot) : Prop :=
  s.CPUPercent > 70 ∨ s.MemPercent > 80 ∨ (∃ d ∈ s.Disks, d.UsedPercent > 85) ∨
    s.SwapPercent > 80

/-- A disk with the given device name and used-percent, other fields zero. -/
def diskOf (device : String) (pct : ℚ) : DiskInfo :=
  { Device := device, Mountpoint := "", Total := 0, Used := 0, Free := 0,
    UsedPercent := pct, Fstype := "" }

/-- A snapshot with the four scored inputs set, other fields zero. -/
def scoredSnapshot (cpu mem swap : ℚ) (disks : List DiskInfo) : MetricsSnapshot :=
  { zeroSnapshot with CPUPercent := cpu, MemPercent := mem, SwapPercent := swap,
                      Disks := disks }

/-! ## Top processes task of `Collect` (lines 238-283) -/

/-- What the per-process queries of lines 249-254 return for one enumerated process:
`NameWithContext` yields a name or fails (`none`); the errors of `CPUPercentWithContext`
and `MemoryPercentWithContext` are discarded and the returned values used as they are
(a `float64` and a `float32`, taken as the exact numbers they denote). -/
structure ProcProbe where
  Pid : Int
  Name : Option String
  CPUPercent : ℚ
  MemoryPercent : ℚ
  deriving DecidableEq

/-- The constant `0.1` of line 256 as it is compared with the `float64` CPU percent: the
`float64` nearest to one tenth, 3602879701896397 / 2^55, which lies slightly above 1/10. -/
def cpuActivityThreshold : ℚ := mkRat 3602879701896397 36028797018963968

/-- The constant `0.1` of line 256 as it is compared with the `float32` memory percent: the
`float32` nearest to one tenth, 13421773 / 2^27, which lies slightly above 1/10. -/
def memActivityThreshold : ℚ := mkRat 13421773 134217728

/-- Lines 247-264: the filtering loop; a process whose name lookup fails is skipped
(`continue`), an active one is appended to `procInfos`. -/
def keepLoop : List ProcProbe → List ProcessInfo → List ProcessInfo
  | [], procInfos => procInfos
  | p :: ps, procInfos =>
    match p.Name with
    | none => keepLoop ps procInfos
    | some name =>
      if p.CPUPercent > cpuActivityThreshold ∨ p.MemoryPercent > memActivityThreshold then
        keepLoop ps (procInfos ++
          [{ PID := p.Pid, Name := name, CPU := p.CPUPercent, Memory := p.MemoryPercent }])
      else keepLoop ps procInfos

/-- Lines 269-271: the body of the inner loop,
`if procInfos[j].CPU > procInfos[i].CPU { swap procInfos[i], procInfos[j] }`. -/
def swapIfGreater (i : Nat) (procInfos : List ProcessInfo) (j : Nat) : List ProcessInfo :=
  match procInfos[i]?, procInfos[j]? with
  | some x, some y => if y.CPU > x.CPU then (procInfos.set i y).set j x else procInfos
  | _, _ => procInfos

/-- Line 268: `for j := i + 1; j < len(procInfos); j++`. -/
def innerLoop (procInfos : List ProcessInfo) (i : Nat) : List ProcessInfo :=
  (List.range' (i + 1) (procInfos.length - (i + 1))).foldl (swapIfGreater i) procInfos

/-- Lines 267-273: `for i := 0; i < len(procInfos)-1; i++`, the ranking loop. -/
def rankLoop (procInfos : List ProcessInfo) : List ProcessInfo :=
  (List.range' 0 (procInfos.length - 1)).foldl innerLoop procInfos

/-- Lines 275-278: `if len(procInfos) > 5 { procInfos = procInfos[:5] }`. -/
def takeTop5 (procInfos : List ProcessInfo) : List ProcessInfo :=
  if procInfos.length > 5 then procInfos.take 5 else procInfos

/-- The value the task stores in `snapshot.TopProcesses` for an enumerated process list. -/
def topProcesses (procs : List ProcProbe) : List ProcessInfo :=
  takeTop5 (rankLoop (keepLoop procs []))

/-- Descending order by CPU percent. -/
def cpuDesc (a b : ProcessInfo) : Prop := a.CPU ≥ b.CPU

instance : DecidableRel cpuDesc := fun a b => inferInstanceAs (Decidable (a.CPU ≥ b.CPU))

/-- A stable descending sort by CPU percent: insertion sort, which puts each process in
front of the first later-discovered process whose CPU percent is not greater. -/
def stableSortDesc (procInfos : List ProcessInfo) : List ProcessInfo :=
  procInfos.insertionSort cpuDesc

/-- The pass of the inner loop seen from the element held at position `i`: it walks the
rest of the list, keeps the greater of the held element and the current one, and leaves the
other in the current slot. -/
def carryMax (x : ProcessInfo) : List ProcessInfo → ProcessInfo × List ProcessInfo
  | [] => (x, [])
  | y :: ys =>
    if y.CPU > x.CPU then ((carryMax y ys).1, x :: (carryMax y ys).2)
    else ((carryMax x ys).1, y :: (carryMax x ys).2)

/-- A process with the given id, name and CPU percent, using 1% of memory. -/
def procOf (pid : Int) (name : String) (cpu : ℚ) : ProcessInfo :=
  { PID := pid, Name := name, CPU := cpu, Memory := 1 }

/-- The processes a, b, c, d of the ranking example, CPU percents 3, 3, 9, 1. -/
def rankExample : List ProcessInfo :=
  [procOf 1 "a" 3, procOf 2 "b" 3, procOf 3 "c" 9, procOf 4 "d" 1]


/-- Strictly descending order by CPU percent. -/
def cpuStrictDesc (a b : ProcessInfo) : Prop := a.CPU > b.CPU

/-- What the filtering loop keeps of one enumerated process: nothing when the name lookup
failed or the process is inactive. -/
def specKept (p : ProcProbe) : Option ProcessInfo :=
  match p.Name with
  | none => none
  | some name =>
    if p.CPUPercent > cpuActivityThreshold ∨ p.MemoryPercent > memActivityThreshold then
      some { PID := p.Pid, Name := name, CPU := p.CPUPercent, Memory := p.MemoryPercent }
    else none

/-- A process counts as active when its CPU percent exceeds the `float64` constant 0.1 or
its memory percent exceeds the `float32` constant 0.1. -/
def isActive (p : ProcProbe) : Bool :=
  decide (p.CPUPercent > cpuActivityThreshold ∨ p.MemoryPercent > memActivityThreshold)

/-! ## `Collector.Collect` (lines 113-291) -/

/-- The fields of gopsutil `host.InfoStat` read at lines 131-134. -/
structure HostInfoStat where
  Hostname : String
  OS : String
  Platform : String
  PlatformVersion : String
  Uptime : Nat
  deriving DecidableEq

/-- The field of gopsutil `cpu.InfoStat` read at line 145. -/
structure CpuInfoStat where
  ModelName : String
  deriving DecidableEq

/-- The fields of gopsutil `mem.VirtualMemoryStat` and `mem.SwapMemoryStat` read at lines
167-169 and 174-176. -/
structure MemoryStat where
  Total : Nat
  Used : Nat
  UsedPercent : ℚ
  deriving DecidableEq

/-- The fields of gopsutil `disk.PartitionStat` read at lines 189-203. -/
structure PartitionStat where
  Device : String
  Mountpoint : String
  Fstype : String
  deriving DecidableEq

/-- The fields of gopsutil `disk.UsageStat` read at lines 199-202. -/
structure UsageStat where
  Total : Nat
  Used : Nat
  Free : Nat
  UsedPercent : ℚ
  deriving DecidableEq

/-- The fields of gopsutil `net.IOCountersStat` read at lines 221-229. -/
structure IOCountersStat where
  Name : String
  BytesSent : Nat
  BytesRecv : Nat
  PacketsSent : Nat
  PacketsRecv : Nat
  deriving DecidableEq

/-- The outcome of every external call made during one `Collect`: `none` is a probe that
returned an error (or was cancelled by the deadline), `some v` one that returned `v`. -/
structure Probes where
  now : Int
  numCPU : Int
  hostInfo : Option HostInfoStat
  cpuInfo : Option (List CpuInfoStat)
  cpuPercent : Option (List ℚ)
  cpuPerCore : Option (List ℚ)
  virtualMemory : Option MemoryStat
  swapMemory : Option MemoryStat
  partitions : Option (List PartitionStat)
  diskUsage : String → Option UsageStat
  ioCounters : Option (List IOCountersStat)
  processes : Option (List ProcProbe)

/-- Conversion to Go `int64` (two's complement wrap-around). -/
def toInt64 (n : Int) : Int := (n + 2 ^ 63) % 2 ^ 64 - 2 ^ 63

/-- Go `strings.HasPrefix`. -/
def HasPrefix (s pre : String) : Bool := pre.toList.isPrefixOf s.toList

/-- Lines 129-136: the write of the host task. -/
def hostWrite (p : Probes) (snapshot : MetricsSnapshot) : MetricsSnapshot :=
  match p.hostInfo with
  | some info =>
    { snapshot with
      Hostname := info.Hostname
      OS := info.OS
      Platform := info.Platform ++ " " ++ info.PlatformVersion
      Uptime := toInt64 (toInt64 info.Uptime * 1000000000) }
  | none => snapshot

/-- Lines 143-148: the first write of the CPU task. -/
def cpuInfoWrite (p : Probes) (snapshot : MetricsSnapshot) : MetricsSnapshot :=
  match p.cpuInfo with
  | some (first :: _) => { snapshot with CPUModel := first.ModelName, CPUCores := p.numCPU }
  | _ => snapshot

/-- Lines 149-153: the second write of the CPU task. -/
def cpuPercentWrite (p : Probes) (snapshot : MetricsSnapshot) : MetricsSnapshot :=
  match p.cpuPercent with
  | some (first :: _) => { snapshot with CPUPercent := first }
  | _ => snapshot

/-- Lines 154-158: the third write of the CPU task. -/
def cpuPerCoreWrite (p : Probes) (snapshot : MetricsSnapshot) : MetricsSnapshot :=
  match p.cpuPerCore with
  | some perCore => { snapshot with CPUPerCore := perCore }
  | none => snapshot

/-- Lines 165-171: the first write of the memory task. -/
def memWrite (p : Probes) (snapshot : MetricsSnapshot) : MetricsSnapshot :=
  match p.virtualMemory with
  | some memInfo =>
    { snapshot with
      MemTotal := memInfo.Total, MemUsed := memInfo.Used, MemPercent := memInfo.UsedPercent }
  | none => snapshot

/-- Lines 172-178: the second write of the memory task. -/
def swapWrite (p : Probes) (snapshot : MetricsSnapshot) : MetricsSnapshot :=
  match p.swapMemory with
  | some swapInfo =>
    { snapshot with
      SwapTotal := swapInfo.Total, SwapUsed := swapInfo.Used,
      SwapPercent := swapInfo.UsedPercent }
  | none => snapshot

/-- Lines 187-206: the loop over the partitions. -/
def diskScan (usage : String → Option UsageStat) :
    List PartitionStat → List DiskInfo → List DiskInfo
  | [], disks => disks
  | part :: rest, disks =>
    if !HasPrefix part.Device "C:" && !HasPrefix part.Device "D:" &&
        !HasPrefix part.Device "E:" && !HasPrefix part.Device "F:" then
      diskScan usage rest disks
    else
      match usage part.Mountpoint with
      | some u =>
        diskScan usage rest (disks ++
          [{ Device := part.Device, Mountpoint := part.Mountpoint, Total := u.Total,
             Used := u.Used, Free := u.Free, UsedPercent := u.UsedPercent,
             Fstype := part.Fstype }])
      | none => diskScan usage rest disks

/-- Lines 185-210: the write of the disk task. -/
def diskWrite (p : Probes) (snapshot : MetricsSnapshot) : MetricsSnapshot :=
  match p.partitions with
  | some partitions => { snapshot with Disks := diskScan p.diskUsage partitions [] }
  | none => snapshot

/-- Lines 219-231: the loop over the interface counters. -/
def netScan : List IOCountersStat → List NetworkInfo → List NetworkInfo
  | [], networks => networks
  | io :: rest, networks =>
    if io.Name = "Loopback Pseudo-Interface 1" ∨ (io.BytesSent = 0 ∧ io.BytesRecv = 0) then
      netScan rest networks
    else
      netScan rest (networks ++
        [{ Name := io.Name, BytesSent := io.BytesSent, BytesRecv := io.BytesRecv,
           PacketsSent := io.PacketsSent, PacketsRecv := io.PacketsRecv }])

/-- Lines 217-235: the write of the network task. -/
def netWrite (p : Probes) (snapshot : MetricsSnapshot) : MetricsSnapshot :=
  match p.ioCounters with
  | some netCounters => { snapshot with Networks := netScan netCounters [] }
  | none => snapshot

/-- Lines 242-282: the write of the top-processes task. -/
def procWrite (p : Probes) (snapshot : MetricsSnapshot) : MetricsSnapshot :=
  match p.processes with
  | some procs => { snapshot with TopProcesses := topProcesses procs }
  | none => snapshot

/-- The nine writes to the shared snapshot, each made as a whole under the mutex `mu`. -/
inductive SnapshotWrite
  | host | cpuInfo | cpuPercent | cpuPerCore | mem | swap | disk | net | proc
  deriving DecidableEq

/-- The effect of one locked write. -/
def SnapshotWrite.apply (p : Probes) (snapshot : MetricsSnapshot) :
    SnapshotWrite → MetricsSnapshot
  | .host => hostWrite p snapshot
  | .cpuInfo => cpuInfoWrite p snapshot
  | .cpuPercent => cpuPercentWrite p snapshot
  | .cpuPerCore => cpuPerCoreWrite p snapshot
  | .mem => memWrite p snapshot
  | .swap => swapWrite p snapshot
  | .disk => diskWrite p snapshot
  | .net => netWrite p snapshot
  | .proc => procWrite p snapshot

/-- The writes in the order of the program text. -/
def programOrder : List SnapshotWrite :=
  [.host, .cpuInfo, .cpuPercent, .cpuPerCore, .mem, .swap, .disk, .net, .proc]

/-- `Collect` when the scheduler lets the goroutines take the mutex in the given order:
the snapshot starts at its zero value with `CollectedAt` set (line 123), the writes happen
one after the other, and after `wg.Wait()` the health score is filled in (line 288). -/
def collectIn (order : List SnapshotWrite) (p : Probes) : MetricsSnapshot :=
  let snapshot := order.foldl (SnapshotWrite.apply p) { zeroSnapshot with CollectedAt := p.now }
  { snapshot with
    HealthScore := (calculateHealthScore snapshot).1
    HealthMessage := (calculateHealthScore snapshot).2 }

/-- Go `Collector.Collect`, the writes taken in program order. -/
def Collect (p : Probes) : MetricsSnapshot := collectIn programOrder p

/-- The partition is on one of the recognised physical drives (lines 189-192). -/
def isPhysicalDrive (part : PartitionStat) : Bool :=
  HasPrefix part.Device "C:" || HasPrefix part.Device "D:" ||
    HasPrefix part.Device "E:" || HasPrefix part.Device "F:"

/-- The disk entry of one partition: none for a partition outside the physical drives or
whose usage query fails. -/
def specDisk (usage : String → Option UsageStat) (part : PartitionStat) : Option DiskInfo :=
  if isPhysicalDrive part then
    (usage part.Mountpoint).map fun u =>
      { Device := part.Device, Mountpoint := part.Mountpoint, Total := u.Total,
        Used := u.Used, Free := u.Free, UsedPercent := u.UsedPercent, Fstype := part.Fstype }
  else none

/-- The network entry of one interface: none for the loopback interface and for an
interface with zero bytes sent and received. -/
def specNetwork (io : IOCountersStat) : Option NetworkInfo :=
  if io.Name = "Loopback Pseudo-Interface 1" ∨ (io.BytesSent = 0 ∧ io.BytesRecv = 0) then none
  else some { Name := io.Name, BytesSent := io.BytesSent, BytesRecv := io.BytesRecv,
              PacketsSent := io.PacketsSent, PacketsRecv := io.PacketsRecv }

/-- Probe outcomes in which the host, per-core, swap and network probes fail and the
others succeed. -/
def sampleProbes : Probes :=
  { now := 1700000000, numCPU := 8, hostInfo := none,
    cpuInfo := some [{ ModelName := "cpu0" }], cpuPercent := some [95, 10],
    cpuPerCore := none,
    virtualMemory := some { Total := 16, Used := 8, UsedPercent := 50 },
    swapMemory := none,
    partitions := some [{ Device := "C:", Mountpoint := "C:", Fstype := "NTFS" },
                        { Device := "X:", Mountpoint := "X:", Fstype := "NTFS" },
                        { Device := "D:", Mountpoint := "D:", Fstype := "NTFS" }],
    diskUsage := fun m =>
      if m = "C:" then some { Total := 100, Used := 40, Free := 60, UsedPercent := 40 }
      else none,
    ioCounters := none,
    processes := some [{ Pid := 1, Name := some "a", CPUPercent := 3, MemoryPercent := 0 },
                       { Pid := 2, Name := none, CPUPercent := 9, MemoryPercent := 0 },
                       { Pid := 3, Name := some "c", CPUPercent := 9, MemoryPercent := 0 }] }

/-- The snapshot described probe by probe: every field group is the zero value when its
probe failed and is read off the value of its own probe when it succeeded. -/
def specSnapshot (p : Probes) : MetricsSnapshot :=
  { CollectedAt := p.now
    HealthScore := 0
    HealthMessage := ""
    Hostname := match p.hostInfo with
      | some info => info.Hostname
      | none => ""
    OS := match p.hostInfo with
      | some info => info.OS
      | none => ""
    Platform := match p.hostInfo with
      | some info => info.Platform ++ " " ++ info.PlatformVersion
      | none => ""
    Uptime := match p.hostInfo with
      | some info => toInt64 (toInt64 info.Uptime * 1000000000)
      | none => 0
    CPUModel := match p.cpuInfo with
      | some (first :: _) => first.ModelName
      | _ => ""
    CPUCores := match p.cpuInfo with
      | some (_ :: _) => p.numCPU
      | _ => 0
    CPUPercent := match p.cpuPercent with
      | some (first :: _) => first
      | _ => 0
    CPUPerCore := match p.cpuPerCore with
      | some perCore => perCore
      | none => []
    MemTotal := match p.virtualMemory with
      | some memInfo => memInfo.Total
      | none => 0
    MemUsed := match p.virtualMemory with
      | some memInfo => memInfo.Used
      | none => 0
    MemPercent := match p.virtualMemory with
      | some memInfo => memInfo.UsedPercent
      | none => 0
    SwapTotal := match p.swapMemory with
      | some swapInfo => swapInfo.Total
      | none => 0
    SwapUsed := match p.swapMemory with
      | some swapInfo => swapInfo.Used
      | none => 0
    SwapPercent := match p.swapMemory with
      | some swapInfo => swapInfo.UsedPercent
      | none => 0
    Disks := match p.partitions with
      | some partitions => partitions.filterMap (specDisk p.diskUsage)
      | none => []
    Networks := match p.ioCounters with
      | some netCounters => netCounters.filterMap specNetwork
      | none => []
    TopProcesses := match p.processes with
      | some procs => topProcesses procs
      | none => [] }

/-! ## The refresh loop: `model`, `Init`, `Update` (lines 354-426) -/

/-- Go `model` (lines 355-364), without the pointer to the collector. -/
structure Model where
  metrics : MetricsSnapshot
  animFrame : Int
  catHidden : Bool
  ready : Bool
  collecting : Bool
  width : Int
  height : Int
  deriving DecidableEq

/-- The messages `Update` distinguishes: a key press with its `msg.String()`, a window
size, a tick, the result of a `Collect`, and any other message. -/
inductive Msg
  | key (str : String)
  | windowSize (width height : Int)
  | tick
  | metrics (snapshot : MetricsSnapshot)
  | other
  deriving DecidableEq

/-- The commands handed back to the Bubble Tea runtime: `m.collectMetrics()` (runs
`Collect` and later delivers a `metricsMsg`), `tickCmd()` (delivers a `tickMsg` after one
second) and `tea.Quit`. `tea.Batch` is a list of commands, `nil` the empty list. -/
inductive Cmd
  | collectMetrics
  | tickCmd
  | quit
  deriving DecidableEq

/-- Go `newModel` (lines 370-375). -/
def newModel : Model :=
  { metrics := zeroSnapshot, animFrame := 0, catHidden := false, ready := false,
    collecting := false, width := 0, height := 0 }

/-- Go `model.Init` (lines 377-382). -/
def Init (_m : Model) : List Cmd := [Cmd.collectMetrics, Cmd.tickCmd]

/-- Go `model.Update` (lines 396-426). -/
def Update (m : Model) : Msg → Model × List Cmd
  | .key str =>
    if str = "q" ∨ str = "ctrl+c" then (m, [Cmd.quit])
    else if str = "c" then ({ m with catHidden := !m.catHidden }, [])
    else if str = "r" then ({ m with collecting := true }, [Cmd.collectMetrics])
    else (m, [])
  | .windowSize width height => ({ m with width := width, height := height }, [])
  | .tick =>
    let m := { m with animFrame := toInt64 (m.animFrame + 1) }
    if Int.tmod m.animFrame 2 = 0 ∧ ¬ m.collecting then
      (m, [Cmd.collectMetrics, Cmd.tickCmd])
    else (m, [Cmd.tickCmd])
  | .metrics snapshot =>
    ({ m with metrics := snapshot, ready := true, collecting := false }, [])
  | .other => (m, [])

/-- The program together with its runtime: the model, the number of `Collect` commands
issued whose `metricsMsg` has not been delivered yet, and whether some `Collect` was ever
issued while another one was outstanding. -/
structure Running where
  m : Model
  outstanding : Nat
  overlapped : Bool
  deriving DecidableEq

/-- Hands the commands returned by `Init` or `Update` to the runtime. -/
def issue (cmds : List Cmd) (outstanding : Nat) (overlapped : Bool) : Nat × Bool :=
  cmds.foldl
    (fun acc cmd =>
      if cmd = Cmd.collectMetrics then (acc.1 + 1, acc.2 || decide (0 < acc.1)) else acc)
    (outstanding, overlapped)

/-- The program after start-up: `newModel` and the commands of `Init` issued. -/
def start : Running :=
  let r := issue (Init newModel) 0 false
  { m := newModel, outstanding := r.1, overlapped := r.2 }

/-- One step of the program: the runtime delivers a message to `Update`. A `metricsMsg`
can be delivered only when a `Collect` is outstanding, and completes it. -/
def deliver (r : Running) (msg : Msg) : Option Running :=
  match msg with
  | .metrics snapshot =>
    if r.outstanding = 0 then none
    else
      let u := Update r.m (.metrics snapshot)
      let i := issue u.2 (r.outstanding - 1) r.overlapped
      some { m := u.1, outstanding := i.1, overlapped := i.2 }
  | msg =>
    let u := Update r.m msg
    let i := issue u.2 r.outstanding r.overlapped
    some { m := u.1, outstanding := i.1, overlapped := i.2 }

/-- The program after a sequence of messages, when that sequence can occur. -/
def run : Running → List Msg → Option Running
  | r, [] => some r
  | r, msg :: rest => (deliver r msg).bind fun r' => run r' rest

/-! ## Ring buffer (exercised by `cmd/status/metrics_test.go`) -/

/-- Modelled from the spec: the `RingBuffer` type, whose implementation is not among the
sources (only its tests are). Capacity, current size, write cursor and a backing store of
length capacity; the field names are those the tests read. -/
structure RingBuffer where
  data : List ℚ
  index : Nat
  size : Nat
  cap : Nat
  deriving DecidableEq

/-- Modelled from the spec: `NewRingBuffer(capacity)`, absent from the sources; it returns
an empty buffer (size 0, cursor 0) over a zeroed store of length capacity. -/
def NewRingBuffer (capacity : Nat) : RingBuffer :=
  { data := List.replicate capacity 0, index := 0, size := 0, cap := capacity }

/-- Modelled from the spec: `RingBuffer.Add`, absent from the sources; if size < capacity it
appends and increments size, otherwise it overwrites the slot at the write cursor and
advances the cursor modulo capacity. -/
def RingBuffer.Add (rb : RingBuffer) (value : ℚ) : RingBuffer :=
  if rb.size < rb.cap then
    { rb with data := rb.data.set rb.size value, size := rb.size + 1 }
  else
    { rb with data := rb.data.set rb.index value, index := (rb.index + 1) % rb.cap }

/-- Modelled from the spec: `RingBuffer.Slice`, absent from the sources; it returns the
current contents oldest-first, and the empty (nil) result when size is 0. Below capacity
the contents are the first `size` slots; at capacity the oldest sample sits at the write
cursor. -/
def RingBuffer.Slice (rb : RingBuffer) : List ℚ :=
  if rb.size = 0 then []
  else if rb.size < rb.cap then rb.data.take rb.size
  else rb.data.drop rb.index ++ rb.data.take rb.index

/-- The buffer after `NewRingBuffer(capacity)` and one `Add` per value, in order. -/
def addAll (capacity : Nat) (values : List ℚ) : RingBuffer :=
  values.foldl RingBuffer.Add (NewRingBuffer capacity)

/-- The last `k` elements of a list, in their order. -/
def lastN (k : Nat) (values : List ℚ) : List ℚ := values.drop (values.length - k)

/-- The state of a buffer of capacity `c` that holds the last values of `values`. -/
def RingBuffer.Holds (rb : RingBuffer) (c : Nat) (values : List ℚ) : Prop :=
  rb.cap = c ∧ rb.data.length = c ∧ rb.size = min values.length c ∧
    (values.length < c → rb.index = 0 ∧ rb.data.take values.length = values) ∧
    (c ≤ values.length → rb.index < c ∧
      rb.data.drop rb.index ++ rb.data.take rb.index = lastN c values)

/-! ## Gateway task store (`cmd/gateway/main.go`, lines 49-98) -/

/-- Go `task`; the field `Type` is called `TaskType` here, `CreatedAt` is in nanoseconds. -/
structure Task where
  ID : String
  TaskType : String
  Status : String
  CreatedAt : Int
  deriving DecidableEq

/-- Go `taskStore`, the mutex left out. -/
structure taskStore where
  tasks : List Task
  deriving DecidableEq

/-- The zero value `task{}`. -/
def zeroTask : Task := { ID := "", TaskType := "", Status := "", CreatedAt := 0 }

/-- Go `taskStore.add` (lines 65-77); `idClock` and `createdClock` are the readings of the
two calls of `time.Now()`, and `fmt.Sprintf("tsk_%d", n)` prints `n` in decimal. -/
def taskStore.add (s : taskStore) (taskType : String) (idClock createdClock : Int) :
    Task × taskStore :=
  let t : Task :=
    { ID := "tsk_" ++ toString idClock, TaskType := taskType, Status := "queued",
      CreatedAt := createdClock }
  (t, { tasks := s.tasks ++ [t] })

/-- Lines 92-97: the loop of `taskStore.get`. -/
def getLoop (id : String) : List Task → Task × Bool
  | [] => (zeroTask, false)
  | t :: rest => if t.ID = id then (t, true) else getLoop id rest

/-- Go `taskStore.get` (lines 88-98). -/
def taskStore.get (s : taskStore) (id : String) : Task × Bool := getLoop id s.tasks

/-! ## Gateway handler `handleTaskByID` (`cmd/gateway/main.go`, lines 155-172) -/

/-- Go `unicode.IsSpace`: tab, line feed, vertical tab, form feed, carriage return, space,
U+0085, U+00A0 and the Unicode space separators. -/
def isSpace (c : Char) : Bool :=
  c.toNat = 0x09 || c.toNat = 0x0A || c.toNat = 0x0B || c.toNat = 0x0C || c.toNat = 0x0D ||
    c.toNat = 0x20 || c.toNat = 0x85 || c.toNat = 0xA0 || c.toNat = 0x1680 ||
    (0x2000 ≤ c.toNat && c.toNat ≤ 0x200A) || c.toNat = 0x2028 || c.toNat = 0x2029 ||
    c.toNat = 0x202F || c.toNat = 0x205F || c.toNat = 0x3000

/-- Go `strings.TrimSpace`: leading and trailing white space removed. -/
def TrimSpace (s : String) : String :=
  String.mk ((s.toList.dropWhile isSpace).reverse.dropWhile isSpace).reverse

/-- Go `strings.TrimPrefix`. -/
def TrimPrefix (s pre : String) : String :=
  if HasPrefix s pre then String.mk (s.toList.drop pre.toList.length) else s

/-- What a handler writes besides the status code: nothing, the JSON of
`errorResponse(code, message)`, the JSON of a task, or the JSON object with the task list
under "items". -/
inductive Body
  | empty
  | error (code message : String)
  | task (item : Task)
  | items (tasks : List Task)
  deriving DecidableEq

/-- The response of a handler: status code and body. -/
structure Response where
  statusCode : Nat
  body : Body
  deriving DecidableEq

/-- Go `gatewayServer.handleTaskByID` for a request with the given method and URL path. -/
def handleTaskByID (store : taskStore) (method path : String) : Response :=
  if method ≠ "GET" then { statusCode := 405, body := Body.empty }
  else
    let id := TrimSpace (TrimPrefix path "/api/v1/tasks/")
    if id = "" then
      { statusCode := 404, body := Body.error "RESOURCE_NOT_FOUND" "task not found" }
    else
      match store.get id with
      | (_, false) =>
        { statusCode := 404, body := Body.error "RESOURCE_NOT_FOUND" "task not found" }
      | (item, true) => { statusCode := 200, body := Body.task item }

/-! ## Gateway handler `handleTasks` (`cmd/gateway/main.go`, lines 133-153) -/

/-- Go `createTaskRequest`; the field `Type` is called `TaskType` here. -/
structure createTaskRequest where
  TaskType : String
  deriving DecidableEq

/-- Go `taskStore.list` (lines 79-86): a copy of the stored tasks. -/
def taskStore.list (s : taskStore) : List Task := s.tasks

/-- Go `gatewayServer.handleTasks` for a request with the given method; `decoded` is the
outcome of `json.NewDecoder(r.Body).Decode(&req)` (`none` when it returns an error), and
the clock readings are those `taskStore.add` takes. The result is the response and the
store afterwards. -/
def handleTasks (store : taskStore) (method : String) (decoded : Option createTaskRequest)
    (idClock createdClock : Int) : Response × taskStore :=
  if method = "GET" then
    ({ statusCode := 200, body := Body.items store.list }, store)
  else if method = "POST" then
    match decoded with
    | none =>
      ({ statusCode := 400, body := Body.error "INVALID_ARGUMENT" "invalid json body" }, store)
    | some req =>
      let req : createTaskRequest := { req with TaskType := TrimSpace req.TaskType }
      if req.TaskType = "" then
        ({ statusCode := 400, body := Body.error "INVALID_ARGUMENT" "type is required" },
          store)
      else
        let created := store.add req.TaskType idClock createdClock
        ({ statusCode := 201, body := Body.task created.1 }, created.2)
  else ({ statusCode := 405, body := Body.empty }, store)

/-! # Theorems -/

/-! ## Health score: proofs -/

/-- The disk loop stops at the first breaching disk and applies that disk's row. -/
theorem diskLoop_eq (ds : List DiskInfo) (st : ScoreState) :
    diskLoop ds st =
      match firstBreachingDisk ds with
      | some d =>
        if d.UsedPercent > 95 then (st.1 - 20, st.2 ++ ["Disk " ++ d.Device ++ " Critical"])
        else (st.1 - 10, st.2 ++ ["Disk " ++ d.Device ++ " Low"])
      | none => st := by
  induction ds with
  | nil => rfl
  | cons d ds ih =>
    unfold diskLoop firstBreachingDisk
    by_cases h95 : d.UsedPercent > 95
    · have h85 : d.UsedPercent > 85 := by linarith
      simp [List.find?, h95, h85]
    · by_cases h85 : d.UsedPercent > 85
      · simp [List.find?, h95, h85]
      · simp only [List.find?, h95, h85, if_false, decide_False]
        exact ih

theorem firstBreachingDisk_eq_none {ds : List DiskInfo}
    (h : ∀ d ∈ ds, d.UsedPercent ≤ 85) : firstBreachingDisk ds = none := by
  unfold firstBreachingDisk
  rw [List.find?_eq_none]
  intro d hd
  simpa using h d hd

theorem firstBreachingDisk_append_cons {pre post : List DiskInfo} {d : DiskInfo}
    (hpre : ∀ x ∈ pre, x.UsedPercent ≤ 85) (hd : d.UsedPercent > 85) :
    firstBreachingDisk (pre ++ d :: post) = some d := by
  induction pre with
  | nil => simp [firstBreachingDisk, List.find?, hd]
  | cons x xs ih =>
    have hx : ¬ x.UsedPercent > 85 := not_lt.mpr (hpre x (List.mem_cons_self _ _))
    have := ih (fun y hy => hpre y (List.mem_cons_of_mem _ hy))
    simpa [firstBreachingDisk, List.find?, hx] using this

theorem firstBreachingDisk_isSome_iff (ds : List DiskInfo) :
    (firstBreachingDisk ds).isSome ↔ ∃ d ∈ ds, d.UsedPercent > 85 := by
  unfold firstBreachingDisk
  simp [List.find?_isSome]

theorem cpuStep_eq (s : MetricsSnapshot) (st : ScoreState) :
    cpuStep s st = (st.1 - specCpuPenalty s, st.2 ++ (specCpuLabel s).toList) := by
  unfold cpuStep specCpuPenalty specCpuLabel
  split_ifs <;> simp

theorem memStep_eq (s : MetricsSnapshot) (st : ScoreState) :
    memStep s st = (st.1 - specMemPenalty s, st.2 ++ (specMemLabel s).toList) := by
  unfold memStep specMemPenalty specMemLabel
  split_ifs <;> simp

theorem diskLoop_eq_spec (s : MetricsSnapshot) (st : ScoreState) :
    diskLoop s.Disks st = (st.1 - specDiskPenalty s, st.2 ++ (specDiskLabel s).toList) := by
  rw [diskLoop_eq]
  unfold specDiskPenalty specDiskLabel
  cases firstBreachingDisk s.Disks with
  | none => simp
  | some d => by_cases h : d.UsedPercent > 95 <;> simp [h]

theorem swapStep_eq (s : MetricsSnapshot) (st : ScoreState) :
    swapStep s st = (st.1 - specSwapPenalty s, st.2 ++ (specSwapLabel s).toList) := by
  unfold swapStep specSwapPenalty specSwapLabel
  split_ifs <;> simp

/-- The penalty state is the table applied row by row. -/
theorem penalties_eq (s : MetricsSnapshot) :
    penalties s =
      (100 - specCpuPenalty s - specMemPenalty s - specDiskPenalty s - specSwapPenalty s,
        specFiredLabels s) := by
  unfold penalties specFiredLabels
  rw [cpuStep_eq, memStep_eq, diskLoop_eq_spec, swapStep_eq]
  simp

/-- The score component of the penalty state. -/
theorem penalties_fst (s : MetricsSnapshot) :
    (penalties s).1 =
      100 - specCpuPenalty s - specMemPenalty s - specDiskPenalty s - specSwapPenalty s := by
  rw [penalties_eq]

/-- The issue list of the penalty state. -/
theorem penalties_snd (s : MetricsSnapshot) : (penalties s).2 = specFiredLabels s := by
  rw [penalties_eq]

theorem specCpuPenalty_bounds (s : MetricsSnapshot) :
    0 ≤ specCpuPenalty s ∧ specCpuPenalty s ≤ 30 := by
  unfold specCpuPenalty; split_ifs <;> decide

theorem specMemPenalty_bounds (s : MetricsSnapshot) :
    0 ≤ specMemPenalty s ∧ specMemPenalty s ≤ 25 := by
  unfold specMemPenalty; split_ifs <;> decide

theorem specDiskPenalty_bounds (s : MetricsSnapshot) :
    0 ≤ specDiskPenalty s ∧ specDiskPenalty s ≤ 20 := by
  unfold specDiskPenalty
  cases firstBreachingDisk s.Disks <;> (simp only []; try split_ifs) <;> decide

theorem specSwapPenalty_bounds (s : MetricsSnapshot) :
    0 ≤ specSwapPenalty s ∧ specSwapPenalty s ≤ 10 := by
  unfold specSwapPenalty; split_ifs <;> decide

theorem penalties_fst_bounds (s : MetricsSnapshot) :
    15 ≤ (penalties s).1 ∧ (penalties s).1 ≤ 100 := by
  rw [penalties_fst]
  have h1 := specCpuPenalty_bounds s
  have h2 := specMemPenalty_bounds s
  have h3 := specDiskPenalty_bounds s
  have h4 := specSwapPenalty_bounds s
  constructor <;> linarith [h1.1, h1.2, h2.1, h2.2, h3.1, h3.2, h4.1, h4.2]

theorem clampScore_penalties (s : MetricsSnapshot) :
    clampScore (penalties s).1 = (penalties s).1 := by
  unfold clampScore
  have := (penalties_fst_bounds s).1
  rw [if_neg]; omega

theorem calculateHealthScore_fst (s : MetricsSnapshot) :
    (calculateHealthScore s).1 = (penalties s).1 := by
  unfold calculateHealthScore
  simp only [clampScore_penalties]

theorem calculateHealthScore_eq (s : MetricsSnapshot) :
    calculateHealthScore s
      = ((penalties s).1, healthMessage (penalties s).1 (penalties s).2) := by
  simp only [calculateHealthScore, clampScore_penalties]

theorem specFiredLabels_ne_nil {s : MetricsSnapshot} (h : ruleFires s) :
    specFiredLabels s ≠ [] := by
  unfold specFiredLabels specCpuLabel specMemLabel specDiskLabel specSwapLabel
  rcases h with h | h | h | h
  · by_cases h90 : s.CPUPercent > 90 <;> simp [h, h90]
  · by_cases h90 : s.MemPercent > 90 <;> simp [h, h90]
  · have := (firstBreachingDisk_isSome_iff s.Disks).mpr h
    obtain ⟨d, hd⟩ := Option.isSome_iff_exists.mp this
    simp [hd]
  · simp [h]

/-- C1: for every snapshot the score returned by `calculateHealthScore` is
`100 - cpu - mem - disk - swap` with the penalties of the table (all thresholds strict, the
disk penalty read off the first disk above 85); and a snapshot with CPU 95, memory 50,
every disk at most 85 and swap 0 scores 70 with message "High CPU". -/
theorem calculateHealthScore_score_formula (s : MetricsSnapshot) :
    (calculateHealthScore s).1 =
        100 - (if s.CPUPercent > 90 then 30 else if s.CPUPercent > 70 then 15 else 0)
          - (if s.MemPercent > 90 then 25 else if s.MemPercent > 80 then 12 else 0)
          - (match s.Disks.find? (fun d => decide (d.UsedPercent > 85)) with
              | some d => if d.UsedPercent > 95 then 20 else 10
              | none => 0)
          - (if s.SwapPercent > 80 then 10 else 0) ∧
      (s.CPUPercent = 95 → s.MemPercent = 50 → (∀ d ∈ s.Disks, d.UsedPercent ≤ 85) →
        s.SwapPercent = 0 → calculateHealthScore s = (70, "High CPU")) := by
  refine ⟨?_, ?_⟩
  · rw [calculateHealthScore_fst, penalties_fst]
    rfl
  · intro hc hm hd hs
    have hnone := firstBreachingDisk_eq_none hd
    rw [calculateHealthScore_eq, penalties_eq]
    simp only [specCpuPenalty, specMemPenalty, specDiskPenalty, specSwapPenalty,
      specFiredLabels, specCpuLabel, specMemLabel, specDiskLabel, specSwapLabel, hnone, hc, hm,
      hs]
    decide

/-- C1 at concrete inputs: the witness of the specification, and CPU exactly at 90 with a
disk exactly at 95, which trigger the lower rows only. -/
theorem calculateHealthScore_score_formula_witness :
    calculateHealthScore (scoredSnapshot 95 50 0 [diskOf "C:" 85, diskOf "D:" 40])
        = (70, "High CPU") ∧
      calculateHealthScore (scoredSnapshot 90 80 80 [diskOf "C:" 85, diskOf "D:" 95])
        = (75, "Elevated CPU, Disk D: Low") :=
  ⟨(calculateHealthScore_score_formula
      (scoredSnapshot 95 50 0 [diskOf "C:" 85, diskOf "D:" 40])).2
      (by decide) (by decide) (by decide) (by decide), by decide⟩

/-- C2: whenever at least one penalty rule fires, the message of `calculateHealthScore` is
the labels of the fired rules, in the order CPU, Memory, Disk, Swap, joined with ", ". -/
theorem calculateHealthScore_message_joined (s : MetricsSnapshot) (h : ruleFires s) :
    (calculateHealthScore s).2 = ", ".intercalate (specFiredLabels s) := by
  have hne := specFiredLabels_ne_nil h
  rw [calculateHealthScore_eq]
  simp only [penalties_snd, healthMessage]
  rw [if_pos (List.length_pos.mpr hne)]

/-- C2 at the witness of the specification: CPU 95, memory 95, disk "X" at 97, swap 90. -/
theorem calculateHealthScore_message_joined_witness :
    ruleFires (scoredSnapshot 95 95 90 [diskOf "X" 97]) ∧
      (calculateHealthScore (scoredSnapshot 95 95 90 [diskOf "X" 97])).2
        = ", ".intercalate ["High CPU", "High Memory", "Disk X Critical", "High Swap"] ∧
      calculateHealthScore (scoredSnapshot 95 95 90 [diskOf "X" 97])
        = (15, "High CPU, High Memory, Disk X Critical, High Swap") :=
  ⟨Or.inl (by decide),
    calculateHealthScore_message_joined (scoredSnapshot 95 95 90 [diskOf "X" 97])
      (Or.inl (by decide)),
    by decide⟩

/-- C3: single-worst-disk policy. When `d` is the first disk above 85 (every disk before it
is at most 85), the result of `calculateHealthScore` does not depend on the disks after
`d`, equals the result for the single disk `d`, and carries exactly one disk penalty
(20 if `d` is above 95, else 10) with the one label naming `d`. -/
theorem calculateHealthScore_single_worst_disk (s : MetricsSnapshot)
    (pre post : List DiskInfo) (d : DiskInfo)
    (hpre : ∀ x ∈ pre, x.UsedPercent ≤ 85) (hd : d.UsedPercent > 85) :
    (∀ post' : List DiskInfo,
        calculateHealthScore { s with Disks := pre ++ d :: post' }
          = calculateHealthScore { s with Disks := pre ++ d :: post }) ∧
      calculateHealthScore { s with Disks := pre ++ d :: post }
        = calculateHealthScore { s with Disks := [d] } ∧
      (calculateHealthScore { s with Disks := pre ++ d :: post }).1
        = (calculateHealthScore { s with Disks := [] }).1
            - (if d.UsedPercent > 95 then 20 else 10) ∧
      (calculateHealthScore { s with Disks := pre ++ d :: post }).2
        = ", ".intercalate ((specCpuLabel s).toList ++ (specMemLabel s).toList
            ++ [if d.UsedPercent > 95 then "Disk " ++ d.Device ++ " Critical"
                else "Disk " ++ d.Device ++ " Low"]
            ++ (specSwapLabel s).toList) := by
  have key : ∀ post' : List DiskInfo,
      penalties { s with Disks := pre ++ d :: post' }
        = (100 - specCpuPenalty s - specMemPenalty s
            - (if d.UsedPercent > 95 then 20 else 10) - specSwapPenalty s,
          (specCpuLabel s).toList ++ (specMemLabel s).toList
            ++ [if d.UsedPercent > 95 then "Disk " ++ d.Device ++ " Critical"
                else "Disk " ++ d.Device ++ " Low"]
            ++ (specSwapLabel s).toList) := by
    intro post'
    rw [penalties_eq]
    simp [specCpuPenalty, specMemPenalty, specDiskPenalty, specSwapPenalty, specFiredLabels,
      specCpuLabel, specMemLabel, specDiskLabel, specSwapLabel,
      firstBreachingDisk_append_cons hpre hd]
  have key1 : penalties { s with Disks := [d] } = penalties { s with Disks := pre ++ d :: post } := by
    rw [key post]
    have := @firstBreachingDisk_append_cons [] [] d (by simp) hd
    rw [penalties_eq]
    simp only [List.nil_append] at this
    simp [specCpuPenalty, specMemPenalty, specDiskPenalty, specSwapPenalty, specFiredLabels,
      specCpuLabel, specMemLabel, specDiskLabel, specSwapLabel, this]
  have key0 : (penalties { s with Disks := [] }).1
      = 100 - specCpuPenalty s - specMemPenalty s - specSwapPenalty s := by
    rw [penalties_eq]
    simp [specCpuPenalty, specMemPenalty, specDiskPenalty, specSwapPenalty, firstBreachingDisk]
  refine ⟨?_, ?_, ?_, ?_⟩
  · intro post'
    rw [calculateHealthScore_eq, calculateHealthScore_eq, key post', key post]
  · rw [calculateHealthScore_eq, calculateHealthScore_eq, key1]
  · rw [calculateHealthScore_fst, calculateHealthScore_fst, key post, key0]
    ring
  · rw [calculateHealthScore_eq]
    simp only [key post, healthMessage]
    rw [if_pos]
    simp

/-- C3 at concrete inputs: disks A at 90 and B at 97 give penalty 10 and label "Disk A Low",
whatever follows A. -/
theorem calculateHealthScore_single_worst_disk_witness :
    (∀ x ∈ ([diskOf "Z" 85] : List DiskInfo), x.UsedPercent ≤ 85) ∧
      (diskOf "A" 90).UsedPercent > 85 ∧
      calculateHealthScore
          { scoredSnapshot 0 0 0 [] with Disks := [diskOf "Z" 85] ++ diskOf "A" 90 :: [diskOf "B" 97] }
        = calculateHealthScore { scoredSnapshot 0 0 0 [] with Disks := [diskOf "A" 90] } ∧
      calculateHealthScore (scoredSnapshot 0 0 0 [diskOf "A" 90, diskOf "B" 97])
        = (90, "Disk A Low") :=
  ⟨by decide, by decide,
    (calculateHealthScore_single_worst_disk (scoredSnapshot 0 0 0 []) [diskOf "Z" 85]
      [diskOf "B" 97] (diskOf "A" 90) (by decide) (by decide)).2.1,
    by decide⟩

/-- C4: the score returned by `calculateHealthScore` is an integer between 0 and 100. -/
theorem calculateHealthScore_score_range (s : MetricsSnapshot) :
    0 ≤ (calculateHealthScore s).1 ∧ (calculateHealthScore s).1 ≤ 100 := by
  rw [calculateHealthScore_fst]
  have := penalties_fst_bounds s
  omega

/-! ## Ranking loop: proofs -/

theorem getElem?_append_cons {α : Type} (pre rest : List α) (x : α) :
    (pre ++ x :: rest)[pre.length]? = some x := by
  induction pre with
  | nil => simp
  | cons p ps ih => simpa using ih

theorem set_append_cons {α : Type} (pre rest : List α) (x y : α) :
    (pre ++ x :: rest).set pre.length y = pre ++ y :: rest := by
  induction pre with
  | nil => rfl
  | cons p ps ih => simp [ih]

/-- One step of the inner loop on a list split at the positions `i` and `j`. -/
theorem swapIfGreater_split (pre done ys : List ProcessInfo) (x y : ProcessInfo) :
    swapIfGreater pre.length (pre ++ x :: (done ++ y :: ys)) (pre.length + 1 + done.length)
      = if y.CPU > x.CPU then pre ++ y :: (done ++ x :: ys)
        else pre ++ x :: (done ++ y :: ys) := by
  have hi : (pre ++ x :: (done ++ y :: ys))[pre.length]? = some x :=
    getElem?_append_cons pre _ x
  have hlen : (pre ++ x :: done).length = pre.length + 1 + done.length := by
    simp only [List.length_append, List.length_cons]; omega
  have hj : (pre ++ x :: (done ++ y :: ys))[pre.length + 1 + done.length]? = some y := by
    have := getElem?_append_cons (pre ++ x :: done) ys y
    rw [hlen] at this
    simpa using this
  unfold swapIfGreater
  rw [hi, hj]
  simp only []
  split_ifs
  · rw [set_append_cons]
    have := set_append_cons (pre ++ y :: done) ys y x
    have hlen' : (pre ++ y :: done).length = pre.length + 1 + done.length := by
      simp only [List.length_append, List.length_cons]; omega
    rw [hlen'] at this
    simpa using this
  · rfl

/-- The inner loop at position `i` carries the maximum of the suffix to position `i`. -/
theorem foldl_swapIfGreater (todo : List ProcessInfo) :
    ∀ (pre done : List ProcessInfo) (x : ProcessInfo),
      (List.range' (pre.length + 1 + done.length) todo.length).foldl
          (swapIfGreater pre.length) (pre ++ x :: (done ++ todo))
        = pre ++ (carryMax x todo).1 :: (done ++ (carryMax x todo).2) := by
  induction todo with
  | nil => intro pre done x; simp [carryMax]
  | cons y ys ih =>
    intro pre done x
    have hlen : ∀ z : ProcessInfo,
        pre.length + 1 + (done ++ [z]).length = pre.length + 1 + done.length + 1 := by
      intro z; simp [Nat.add_assoc]
    simp only [List.length_cons, List.range'_succ, List.foldl_cons]
    rw [swapIfGreater_split]
    by_cases h : y.CPU > x.CPU
    · have := ih pre (done ++ [x]) y
      rw [hlen] at this
      simp only [List.append_assoc, List.singleton_append] at this
      simp only [h, if_true, carryMax]
      exact this
    · have := ih pre (done ++ [y]) x
      rw [hlen] at this
      simp only [List.append_assoc, List.singleton_append] at this
      simp only [h, if_false, carryMax]
      exact this

theorem carryMax_length (todo : List ProcessInfo) :
    ∀ x : ProcessInfo, (carryMax x todo).2.length = todo.length := by
  induction todo with
  | nil => intro x; rfl
  | cons y ys ih =>
    intro x
    unfold carryMax
    split_ifs <;> simp [ih]

theorem carryMax_perm (todo : List ProcessInfo) :
    ∀ x : ProcessInfo, ((carryMax x todo).1 :: (carryMax x todo).2).Perm (x :: todo) := by
  induction todo with
  | nil => intro x; exact List.Perm.refl _
  | cons y ys ih =>
    intro x
    unfold carryMax
    split_ifs
    · exact (List.Perm.swap _ _ _).trans ((ih y).cons x)
    · exact ((List.Perm.swap _ _ _).trans ((ih x).cons y)).trans (List.Perm.swap _ _ _)

theorem carryMax_ge_start (todo : List ProcessInfo) :
    ∀ x : ProcessInfo, x.CPU ≤ (carryMax x todo).1.CPU := by
  induction todo with
  | nil => intro x; exact le_refl _
  | cons y ys ih =>
    intro x
    unfold carryMax
    split_ifs with h
    · exact le_trans (le_of_lt h) (ih y)
    · exact ih x

theorem carryMax_ge_rest (todo : List ProcessInfo) :
    ∀ x : ProcessInfo, ∀ z ∈ (carryMax x todo).2, z.CPU ≤ (carryMax x todo).1.CPU := by
  induction todo with
  | nil => intro x z hz; simp [carryMax] at hz
  | cons y ys ih =>
    intro x z hz
    unfold carryMax at hz ⊢
    split_ifs at hz ⊢ with h
    · rcases List.mem_cons.mp hz with rfl | hz
      · exact le_trans (le_of_lt h) (carryMax_ge_start ys y)
      · exact ih y z hz
    · rcases List.mem_cons.mp hz with rfl | hz
      · exact le_trans (not_lt.mp h) (carryMax_ge_start ys x)
      · exact ih x z hz

/-- The inner loop on a list split at position `i`. -/
theorem innerLoop_split (pre todo : List ProcessInfo) (x : ProcessInfo) :
    innerLoop (pre ++ x :: todo) pre.length
      = pre ++ (carryMax x todo).1 :: (carryMax x todo).2 := by
  have := foldl_swapIfGreater todo pre [] x
  unfold innerLoop
  have hlen : (pre ++ x :: todo).length - (pre.length + 1) = todo.length := by
    simp; omega
  rw [hlen]
  simpa using this

/-- The outer loop from position `i` on sorts the suffix and leaves the prefix alone. -/
theorem foldl_innerLoop (n : Nat) :
    ∀ (pre suf : List ProcessInfo), suf.length = n →
      ∃ out : List ProcessInfo,
        (List.range' pre.length (suf.length - 1)).foldl innerLoop (pre ++ suf) = pre ++ out ∧
          out.Perm suf ∧ out.Pairwise cpuDesc := by
  induction n with
  | zero =>
    intro pre suf h
    have : suf = [] := List.length_eq_zero.mp h
    subst this
    exact ⟨[], by simp, List.Perm.refl _, List.Pairwise.nil⟩
  | succ n ih =>
    intro pre suf h
    obtain ⟨x, todo, rfl⟩ := List.exists_cons_of_length_eq_add_one h
    have hn : todo.length = n := by simpa using h
    cases n with
    | zero =>
      have : todo = [] := List.length_eq_zero.mp hn
      subst this
      exact ⟨[x], by simp, List.Perm.refl _, List.pairwise_singleton _ _⟩
    | succ k =>
      have hr : (carryMax x todo).2.length = k + 1 := by rw [carryMax_length, hn]
      obtain ⟨out, hout, hperm, hsorted⟩ :=
        ih (pre ++ [(carryMax x todo).1]) (carryMax x todo).2 hr
      refine ⟨(carryMax x todo).1 :: out, ?_, ?_, ?_⟩
      · have e1 : (x :: todo).length - 1 = k + 1 := by simp [hn]
        have e2 : (carryMax x todo).2.length - 1 = k := by simp [hr]
        rw [e1, List.range'_succ, List.foldl_cons, innerLoop_split]
        rw [e2] at hout
        simpa using hout
      · exact (hperm.cons _).trans (carryMax_perm todo x)
      · refine List.Pairwise.cons ?_ hsorted
        intro z hz
        exact carryMax_ge_rest todo x z (hperm.subset hz)

theorem rankLoop_perm (l : List ProcessInfo) : (rankLoop l).Perm l := by
  obtain ⟨out, hout, hperm, _⟩ := foldl_innerLoop l.length [] l rfl
  unfold rankLoop
  simp only [List.length_nil, List.nil_append] at hout
  rw [hout]; exact hperm

theorem rankLoop_sorted (l : List ProcessInfo) : (rankLoop l).Pairwise cpuDesc := by
  obtain ⟨out, hout, _, hsorted⟩ := foldl_innerLoop l.length [] l rfl
  unfold rankLoop
  simp only [List.length_nil, List.nil_append] at hout
  rw [hout]; exact hsorted

instance : IsTotal ProcessInfo cpuDesc := ⟨fun a b => le_total b.CPU a.CPU⟩

instance : IsTrans ProcessInfo cpuDesc := ⟨fun _ _ _ hab hbc => le_trans hbc hab⟩

instance : IsAntisymm ProcessInfo cpuStrictDesc :=
  ⟨fun _ _ hab hba => absurd hab (not_lt.mpr (le_of_lt hba))⟩

theorem cpuActivityThreshold_eq : cpuActivityThreshold = 3602879701896397 / 2 ^ 55 := by
  unfold cpuActivityThreshold
  simp only [Rat.mkRat_eq_div]
  norm_num

theorem memActivityThreshold_eq : memActivityThreshold = 13421773 / 2 ^ 27 := by
  unfold memActivityThreshold
  simp only [Rat.mkRat_eq_div]
  norm_num

/-- Both activity thresholds lie above one tenth, by less than 2 / 10^9. -/
theorem activityThreshold_bounds :
    (1 : ℚ) / 10 < cpuActivityThreshold ∧ cpuActivityThreshold < memActivityThreshold ∧
      memActivityThreshold < 1 / 10 + 2 / 10 ^ 9 := by
  unfold cpuActivityThreshold memActivityThreshold
  simp only [Rat.mkRat_eq_div]
  norm_num

theorem stableSortDesc_perm (l : List ProcessInfo) : (stableSortDesc l).Perm l :=
  List.perm_insertionSort cpuDesc l

theorem stableSortDesc_sorted (l : List ProcessInfo) : (stableSortDesc l).Pairwise cpuDesc :=
  List.sorted_insertionSort cpuDesc l

/-- With pairwise distinct CPU percents there is only one descending arrangement. -/
theorem sorted_perm_unique {l₁ l₂ : List ProcessInfo} (hp : l₁.Perm l₂)
    (h₁ : l₁.Pairwise cpuDesc) (h₂ : l₂.Pairwise cpuDesc)
    (hd : l₁.Pairwise (fun a b => a.CPU ≠ b.CPU)) : l₁ = l₂ := by
  have hd₂ : l₂.Pairwise (fun a b => a.CPU ≠ b.CPU) :=
    hp.pairwise hd (fun h => Ne.symm h)
  have strict : ∀ {l : List ProcessInfo}, l.Pairwise cpuDesc →
      l.Pairwise (fun a b => a.CPU ≠ b.CPU) → l.Pairwise cpuStrictDesc := by
    intro l hs hne
    exact (hs.and hne).imp (fun h => lt_of_le_of_ne h.1 (Ne.symm h.2))
  exact List.eq_of_perm_of_sorted hp (strict h₁ hd) (strict h₂ hd₂)

theorem keepLoop_eq (ps : List ProcProbe) :
    ∀ acc : List ProcessInfo, keepLoop ps acc = acc ++ ps.filterMap specKept := by
  induction ps with
  | nil => intro acc; simp [keepLoop]
  | cons p ps ih =>
    intro acc
    unfold keepLoop
    cases hn : p.Name with
    | none => simp [ih, List.filterMap_cons, specKept, hn]
    | some name =>
      by_cases h : p.CPUPercent > cpuActivityThreshold ∨ p.MemoryPercent > memActivityThreshold
      · simp [ih, List.filterMap_cons, specKept, hn, h]
      · simp [ih, List.filterMap_cons, specKept, hn, h]

theorem takeTop5_eq (l : List ProcessInfo) : takeTop5 l = l.take 5 := by
  unfold takeTop5
  split_ifs with h
  · rfl
  · rw [List.take_of_length_le (by omega)]

theorem length_filterMap_specKept (ps : List ProcProbe) :
    (ps.filterMap specKept).length
      = ps.countP (fun p => p.Name.isSome && isActive p) := by
  induction ps with
  | nil => rfl
  | cons p ps ih =>
    rw [List.filterMap_cons, List.countP_cons]
    cases hn : p.Name with
    | none => simp [specKept, hn, ih]
    | some name =>
      by_cases h : p.CPUPercent > cpuActivityThreshold ∨ p.MemoryPercent > memActivityThreshold
      · simp [specKept, hn, h, ih, isActive]
      · simp [specKept, hn, h, ih, isActive]

/-- C5, as stated, fails: on the processes a, b, c, d with CPU percents 3, 3, 9, 1 the
ranking loop returns c, b, a, d, whereas a stable descending sort returns c, a, b, d; the
two processes at 3% come out in the reverse of their discovery order. -/
theorem rankLoop_not_stable :
    rankLoop rankExample
        = [procOf 3 "c" 9, procOf 2 "b" 3, procOf 1 "a" 3, procOf 4 "d" 1] ∧
      stableSortDesc rankExample
        = [procOf 3 "c" 9, procOf 1 "a" 3, procOf 2 "b" 3, procOf 4 "d" 1] ∧
      rankLoop rankExample ≠ stableSortDesc rankExample ∧
      (rankLoop rankExample).filter (fun p => decide (p.CPU = 3))
        ≠ rankExample.filter (fun p => decide (p.CPU = 3)) := by
  decide

/-- C5, amended: for every list of kept processes the ranking loop returns a permutation of
the list ordered by CPU percent descending, and when the CPU percents are pairwise distinct
this is the order of a stable descending sort. -/
theorem rankLoop_sorted_perm (l : List ProcessInfo) :
    (rankLoop l).Perm l ∧
      (rankLoop l).Pairwise (fun a b => a.CPU ≥ b.CPU) ∧
      (l.Pairwise (fun a b => a.CPU ≠ b.CPU) → rankLoop l = stableSortDesc l) := by
  refine ⟨rankLoop_perm l, rankLoop_sorted l, ?_⟩
  intro hd
  have hd' : (rankLoop l).Pairwise (fun a b => a.CPU ≠ b.CPU) :=
    (rankLoop_perm l).symm.pairwise hd (fun h => Ne.symm h)
  exact sorted_perm_unique ((rankLoop_perm l).trans (stableSortDesc_perm l).symm)
    (rankLoop_sorted l) (stableSortDesc_sorted l) hd'

/-- C5, amended, at the concrete list with CPU percents 3, 9, 1. -/
theorem rankLoop_sorted_perm_witness :
    [procOf 1 "a" 3, procOf 3 "c" 9, procOf 4 "d" 1].Pairwise (fun a b => a.CPU ≠ b.CPU) ∧
      rankLoop [procOf 1 "a" 3, procOf 3 "c" 9, procOf 4 "d" 1]
        = stableSortDesc [procOf 1 "a" 3, procOf 3 "c" 9, procOf 4 "d" 1] ∧
      rankLoop [procOf 1 "a" 3, procOf 3 "c" 9, procOf 4 "d" 1]
        = [procOf 3 "c" 9, procOf 1 "a" 3, procOf 4 "d" 1] :=
  ⟨by decide,
    (rankLoop_sorted_perm [procOf 1 "a" 3, procOf 3 "c" 9, procOf 4 "d" 1]).2.2 (by decide),
    by decide⟩

/-- C6, as stated, fails: a process with 50% CPU whose name lookup fails is active but is
skipped by the filtering loop, so one active process gives an empty `TopProcesses`. -/
theorem topProcesses_length_counterexample :
    ([{ Pid := 7, Name := none, CPUPercent := 50, MemoryPercent := 2 }] : List ProcProbe).countP
        (fun p => decide (p.CPUPercent > cpuActivityThreshold ∨
          p.MemoryPercent > memActivityThreshold))
        = 1 ∧
      topProcesses [{ Pid := 7, Name := none, CPUPercent := 50, MemoryPercent := 2 }] = [] ∧
      (topProcesses [{ Pid := 7, Name := none, CPUPercent := 50, MemoryPercent := 2 }]).length
        ≠ min 5 (([{ Pid := 7, Name := none, CPUPercent := 50, MemoryPercent := 2 }] :
            List ProcProbe).countP
          (fun p => decide (p.CPUPercent > cpuActivityThreshold ∨
            p.MemoryPercent > memActivityThreshold))) := by
  decide

/-- C6, amended: for every enumerated process list, with the kept processes being those
whose name lookup succeeded and whose CPU percent exceeds the `float64` constant 0.1
(3602879701896397 / 2^55) or whose memory percent exceeds the `float32` constant 0.1
(13421773 / 2^27), `TopProcesses` has length `min 5 k` for `k` the number of kept
processes, is a sub-multiset of the kept processes, has non-increasing CPU percents, and no
kept process left out has a CPU percent greater than that of an included one. The
comparisons are strict: a named process exactly at both constants is dropped, one at the
next `float64` above the CPU constant is kept. -/
theorem topProcesses_spec (procs : List ProcProbe) :
    (topProcesses procs).length
        = min 5 (procs.countP (fun p => p.Name.isSome &&
            decide (p.CPUPercent > 3602879701896397 / 2 ^ 55 ∨
              p.MemoryPercent > 13421773 / 2 ^ 27))) ∧
      (topProcesses procs).Subperm (procs.filterMap specKept) ∧
      (topProcesses procs).Pairwise (fun a b => a.CPU ≥ b.CPU) ∧
      (∃ leftOut : List ProcessInfo,
        (topProcesses procs ++ leftOut).Perm (procs.filterMap specKept) ∧
          ∀ x ∈ topProcesses procs, ∀ y ∈ leftOut, y.CPU ≤ x.CPU) ∧
      topProcesses [{ Pid := 1, Name := some "x", CPUPercent := cpuActivityThreshold,
                      MemoryPercent := memActivityThreshold }] = [] ∧
      topProcesses [{ Pid := 1, Name := some "x",
                      CPUPercent := mkRat 3602879701896398 36028797018963968,
                      MemoryPercent := 0 }]
        = [{ PID := 1, Name := "x", CPU := mkRat 3602879701896398 36028797018963968,
             Memory := 0 }] := by
  have hkeep : keepLoop procs [] = procs.filterMap specKept := by
    rw [keepLoop_eq]; rfl
  have htop : topProcesses procs = (rankLoop (procs.filterMap specKept)).take 5 := by
    unfold topProcesses
    rw [takeTop5_eq, hkeep]
  have hperm := rankLoop_perm (procs.filterMap specKept)
  have hsorted := rankLoop_sorted (procs.filterMap specKept)
  refine ⟨?_, ?_, ?_, ?_, by decide, by decide⟩
  · rw [htop, List.length_take, hperm.length_eq, length_filterMap_specKept]
    have : (fun p : ProcProbe => p.Name.isSome &&
        decide (p.CPUPercent > 3602879701896397 / 2 ^ 55 ∨
          p.MemoryPercent > 13421773 / 2 ^ 27))
        = (fun p : ProcProbe => p.Name.isSome && isActive p) := by
      funext p
      simp only [isActive, cpuActivityThreshold_eq, memActivityThreshold_eq]
    rw [this]
  · rw [htop]
    exact (List.take_sublist _ _).subperm.trans hperm.subperm
  · rw [htop]
    exact hsorted.sublist (List.take_sublist _ _)
  · refine ⟨(rankLoop (procs.filterMap specKept)).drop 5, ?_, ?_⟩
    · rw [htop, List.take_append_drop]
      exact hperm
    · rw [htop]
      have := hsorted
      rw [← List.take_append_drop 5 (rankLoop (procs.filterMap specKept)),
        List.pairwise_append] at this
      intro x hx y hy
      exact this.2.2 x hx y hy

/-! ## `Collect`: proofs -/

theorem diskScan_eq (usage : String → Option UsageStat) (parts : List PartitionStat) :
    ∀ disks : List DiskInfo,
      diskScan usage parts disks = disks ++ parts.filterMap (specDisk usage) := by
  induction parts with
  | nil => intro disks; simp [diskScan]
  | cons part rest ih =>
    intro disks
    unfold diskScan
    rw [List.filterMap_cons]
    by_cases h : isPhysicalDrive part = true
    · have h' : (!HasPrefix part.Device "C:" && !HasPrefix part.Device "D:" &&
          !HasPrefix part.Device "E:" && !HasPrefix part.Device "F:") = false := by
        simp only [isPhysicalDrive] at h
        revert h
        cases HasPrefix part.Device "C:" <;> cases HasPrefix part.Device "D:" <;>
          cases HasPrefix part.Device "E:" <;> cases HasPrefix part.Device "F:" <;> simp
      rw [h']
      cases hu : usage part.Mountpoint with
      | none => simp [specDisk, h, hu, ih]
      | some u => simp [specDisk, h, hu, ih]
    · have h' : (!HasPrefix part.Device "C:" && !HasPrefix part.Device "D:" &&
          !HasPrefix part.Device "E:" && !HasPrefix part.Device "F:") = true := by
        simp only [isPhysicalDrive] at h
        revert h
        cases HasPrefix part.Device "C:" <;> cases HasPrefix part.Device "D:" <;>
          cases HasPrefix part.Device "E:" <;> cases HasPrefix part.Device "F:" <;> simp
      rw [h']
      simp [specDisk, h, ih]

theorem netScan_eq (netCounters : List IOCountersStat) :
    ∀ networks : List NetworkInfo,
      netScan netCounters networks = networks ++ netCounters.filterMap specNetwork := by
  induction netCounters with
  | nil => intro networks; simp [netScan]
  | cons io rest ih =>
    intro networks
    unfold netScan
    rw [List.filterMap_cons]
    by_cases h : io.Name = "Loopback Pseudo-Interface 1" ∨ (io.BytesSent = 0 ∧ io.BytesRecv = 0)
    · simp only [specNetwork, h, if_true, ih]
    · simp only [specNetwork, h, if_false, ih, List.append_assoc, List.singleton_append]

/-- Any two locked writes commute: they assign disjoint fields. -/
theorem SnapshotWrite.apply_comm (p : Probes) (z : MetricsSnapshot) (x y : SnapshotWrite) :
    SnapshotWrite.apply p (SnapshotWrite.apply p z x) y
      = SnapshotWrite.apply p (SnapshotWrite.apply p z y) x := by
  cases x <;> cases y <;>
    simp only [SnapshotWrite.apply, hostWrite, cpuInfoWrite, cpuPercentWrite, cpuPerCoreWrite,
      memWrite, swapWrite, diskWrite, netWrite, procWrite] <;>
    (repeat' split) <;> rfl

/-- Every schedule of the nine writes yields the snapshot of the program order. -/
theorem collectIn_perm (p : Probes) {order : List SnapshotWrite}
    (h : order.Perm programOrder) : collectIn order p = Collect p := by
  unfold Collect collectIn
  have := List.Perm.foldl_eq' h (f := SnapshotWrite.apply p)
    (fun x _ y _ z => SnapshotWrite.apply_comm p z x y) { zeroSnapshot with CollectedAt := p.now }
  rw [this]

theorem hostWrite_eq (p : Probes) (s : MetricsSnapshot) :
    hostWrite p s = { s with
      Hostname := match p.hostInfo with
        | some info => info.Hostname
        | none => s.Hostname
      OS := match p.hostInfo with
        | some info => info.OS
        | none => s.OS
      Platform := match p.hostInfo with
        | some info => info.Platform ++ " " ++ info.PlatformVersion
        | none => s.Platform
      Uptime := match p.hostInfo with
        | some info => toInt64 (toInt64 info.Uptime * 1000000000)
        | none => s.Uptime } := by
  unfold hostWrite; cases p.hostInfo <;> rfl

theorem cpuInfoWrite_eq (p : Probes) (s : MetricsSnapshot) :
    cpuInfoWrite p s = { s with
      CPUModel := match p.cpuInfo with
        | some (first :: _) => first.ModelName
        | _ => s.CPUModel
      CPUCores := match p.cpuInfo with
        | some (_ :: _) => p.numCPU
        | _ => s.CPUCores } := by
  unfold cpuInfoWrite; rcases p.cpuInfo with _ | _ | _ <;> rfl

theorem cpuPercentWrite_eq (p : Probes) (s : MetricsSnapshot) :
    cpuPercentWrite p s = { s with
      CPUPercent := match p.cpuPercent with
        | some (first :: _) => first
        | _ => s.CPUPercent } := by
  unfold cpuPercentWrite; rcases p.cpuPercent with _ | _ | _ <;> rfl

theorem cpuPerCoreWrite_eq (p : Probes) (s : MetricsSnapshot) :
    cpuPerCoreWrite p s = { s with
      CPUPerCore := match p.cpuPerCore with
        | some perCore => perCore
        | none => s.CPUPerCore } := by
  unfold cpuPerCoreWrite; cases p.cpuPerCore <;> rfl

theorem memWrite_eq (p : Probes) (s : MetricsSnapshot) :
    memWrite p s = { s with
      MemTotal := match p.virtualMemory with
        | some memInfo => memInfo.Total
        | none => s.MemTotal
      MemUsed := match p.virtualMemory with
        | some memInfo => memInfo.Used
        | none => s.MemUsed
      MemPercent := match p.virtualMemory with
        | some memInfo => memInfo.UsedPercent
        | none => s.MemPercent } := by
  unfold memWrite; cases p.virtualMemory <;> rfl

theorem swapWrite_eq (p : Probes) (s : MetricsSnapshot) :
    swapWrite p s = { s with
      SwapTotal := match p.swapMemory with
        | some swapInfo => swapInfo.Total
        | none => s.SwapTotal
      SwapUsed := match p.swapMemory with
        | some swapInfo => swapInfo.Used
        | none => s.SwapUsed
      SwapPercent := match p.swapMemory with
        | some swapInfo => swapInfo.UsedPercent
        | none => s.SwapPercent } := by
  unfold swapWrite; cases p.swapMemory <;> rfl

theorem diskWrite_eq (p : Probes) (s : MetricsSnapshot) :
    diskWrite p s = { s with
      Disks := match p.partitions with
        | some partitions => partitions.filterMap (specDisk p.diskUsage)
        | none => s.Disks } := by
  unfold diskWrite; cases p.partitions <;> simp [diskScan_eq]

theorem netWrite_eq (p : Probes) (s : MetricsSnapshot) :
    netWrite p s = { s with
      Networks := match p.ioCounters with
        | some netCounters => netCounters.filterMap specNetwork
        | none => s.Networks } := by
  unfold netWrite; cases p.ioCounters <;> simp [netScan_eq]

theorem procWrite_eq (p : Probes) (s : MetricsSnapshot) :
    procWrite p s = { s with
      TopProcesses := match p.processes with
        | some procs => topProcesses procs
        | none => s.TopProcesses } := by
  unfold procWrite; cases p.processes <;> rfl

/-- The snapshot after the nine writes in program order. -/
theorem foldl_programOrder (p : Probes) :
    programOrder.foldl (SnapshotWrite.apply p) { zeroSnapshot with CollectedAt := p.now }
      = specSnapshot p := by
  simp only [programOrder, List.foldl, SnapshotWrite.apply]
  rw [hostWrite_eq, cpuInfoWrite_eq, cpuPercentWrite_eq, cpuPerCoreWrite_eq, memWrite_eq,
    swapWrite_eq, diskWrite_eq, netWrite_eq, procWrite_eq]
  rfl

theorem Collect_eq (p : Probes) :
    Collect p = { specSnapshot p with
      HealthScore := (calculateHealthScore (specSnapshot p)).1
      HealthMessage := (calculateHealthScore (specSnapshot p)).2 } := by
  unfold Collect collectIn
  rw [foldl_programOrder]

theorem calculateHealthScore_congr {s t : MetricsSnapshot} (h1 : s.CPUPercent = t.CPUPercent)
    (h2 : s.MemPercent = t.MemPercent) (h3 : s.Disks = t.Disks)
    (h4 : s.SwapPercent = t.SwapPercent) : calculateHealthScore s = calculateHealthScore t := by
  unfold calculateHealthScore penalties swapStep memStep cpuStep
  rw [h1, h2, h3, h4]

/-- C7: partial-failure tolerance of `Collect`. For every combination of probe outcomes and
every order in which the nine locked writes reach the snapshot, the returned snapshot is
the one of the program order; the fields of each probe are at their zero value when the
probe failed and are read off that probe's own result when it succeeded (CPU model, core
count and CPU percent need a non-empty result), whatever the other probes did; the health
fields are the score of the returned snapshot. `Collect` is a total function returning a
snapshot, never an error. -/
theorem Collect_partial_failure (p : Probes) (order : List SnapshotWrite)
    (s : MetricsSnapshot) (horder : order.Perm programOrder) (hs : s = collectIn order p) :
    s = Collect p ∧
      s.CollectedAt = p.now ∧
      (match p.hostInfo with
        | none => s.Hostname = "" ∧ s.OS = "" ∧ s.Platform = "" ∧ s.Uptime = 0
        | some info =>
          s.Hostname = info.Hostname ∧ s.OS = info.OS ∧
            s.Platform = info.Platform ++ " " ++ info.PlatformVersion ∧
            s.Uptime = toInt64 (toInt64 info.Uptime * 1000000000)) ∧
      (match p.cpuInfo with
        | none => s.CPUModel = "" ∧ s.CPUCores = 0
        | some [] => s.CPUModel = "" ∧ s.CPUCores = 0
        | some (first :: _) => s.CPUModel = first.ModelName ∧ s.CPUCores = p.numCPU) ∧
      (match p.cpuPercent with
        | none => s.CPUPercent = 0
        | some [] => s.CPUPercent = 0
        | some (first :: _) => s.CPUPercent = first) ∧
      (match p.cpuPerCore with
        | none => s.CPUPerCore = []
        | some perCore => s.CPUPerCore = perCore) ∧
      (match p.virtualMemory with
        | none => s.MemTotal = 0 ∧ s.MemUsed = 0 ∧ s.MemPercent = 0
        | some memInfo =>
          s.MemTotal = memInfo.Total ∧ s.MemUsed = memInfo.Used ∧
            s.MemPercent = memInfo.UsedPercent) ∧
      (match p.swapMemory with
        | none => s.SwapTotal = 0 ∧ s.SwapUsed = 0 ∧ s.SwapPercent = 0
        | some swapInfo =>
          s.SwapTotal = swapInfo.Total ∧ s.SwapUsed = swapInfo.Used ∧
            s.SwapPercent = swapInfo.UsedPercent) ∧
      (match p.partitions with
        | none => s.Disks = []
        | some partitions => s.Disks = partitions.filterMap (specDisk p.diskUsage)) ∧
      (match p.ioCounters with
        | none => s.Networks = []
        | some netCounters => s.Networks = netCounters.filterMap specNetwork) ∧
      (match p.processes with
        | none => s.TopProcesses = []
        | some procs => s.TopProcesses = topProcesses procs) ∧
      (s.HealthScore, s.HealthMessage) = calculateHealthScore s := by
  subst hs
  rw [collectIn_perm p horder, Collect_eq]
  refine ⟨rfl, rfl, ?_, ?_, ?_, ?_, ?_, ?_, ?_, ?_, ?_, ?_⟩
  · cases hh : p.hostInfo <;> simp [specSnapshot, hh]
  · rcases hh : p.cpuInfo with _ | _ | _ <;> simp [specSnapshot, hh]
  · rcases hh : p.cpuPercent with _ | _ | _ <;> simp [specSnapshot, hh]
  · cases hh : p.cpuPerCore <;> simp [specSnapshot, hh]
  · cases hh : p.virtualMemory <;> simp [specSnapshot, hh]
  · cases hh : p.swapMemory <;> simp [specSnapshot, hh]
  · cases hh : p.partitions <;> simp [specSnapshot, hh]
  · cases hh : p.ioCounters <;> simp [specSnapshot, hh]
  · cases hh : p.processes <;> simp [specSnapshot, hh]
  · have := calculateHealthScore_congr
      (s := { specSnapshot p with
        HealthScore := (calculateHealthScore (specSnapshot p)).1
        HealthMessage := (calculateHealthScore (specSnapshot p)).2 })
      (t := specSnapshot p) rfl rfl rfl rfl
    rw [this]

/-- C7 at concrete probe outcomes, the writes arriving in the reverse of program order: the
host, per-core, swap and network fields stay zero, the other fields are populated. -/
theorem Collect_partial_failure_witness :
    programOrder.reverse.Perm programOrder ∧
      collectIn programOrder.reverse sampleProbes = Collect sampleProbes ∧
      Collect sampleProbes =
        { zeroSnapshot with
          CollectedAt := 1700000000, HealthScore := 70, HealthMessage := "High CPU",
          CPUModel := "cpu0", CPUCores := 8, CPUPercent := 95,
          MemTotal := 16, MemUsed := 8, MemPercent := 50,
          Disks := [{ Device := "C:", Mountpoint := "C:", Total := 100, Used := 40,
                      Free := 60, UsedPercent := 40, Fstype := "NTFS" }],
          TopProcesses := [{ PID := 3, Name := "c", CPU := 9, Memory := 0 },
                           { PID := 1, Name := "a", CPU := 3, Memory := 0 }] } :=
  ⟨List.reverse_perm _,
    (Collect_partial_failure sampleProbes programOrder.reverse
      (collectIn programOrder.reverse sampleProbes) (List.reverse_perm _) rfl).1,
    by decide⟩

/-! ## Refresh loop: evaluation -/

/-- C8: the refresh loop does issue overlapping collections. `Init` issues a `Collect`
without setting `collecting`; if its result has not arrived by the second tick,
`Update` issues a second `Collect` (`animFrame` is 2 and `collecting` is false), so two
cycles are outstanding. The key "r" likewise issues a `Collect` without looking at
`collecting`. -/
theorem Update_overlapping_collect :
    (start.m.collecting, start.outstanding, start.overlapped) = (false, 1, false) ∧
      (run start [Msg.tick, Msg.tick]).map
          (fun r => (r.m.animFrame, r.m.collecting, r.outstanding, r.overlapped))
        = some (2, false, 2, true) ∧
      (run start [Msg.key "r"]).map (fun r => (r.m.collecting, r.outstanding, r.overlapped))
        = some (true, 2, true) ∧
      (run start [Msg.key "r", Msg.key "r"]).map
          (fun r => (r.m.collecting, r.outstanding, r.overlapped))
        = some (true, 3, true) := by
  decide

/-! ## Ring buffer: proofs -/

theorem take_succ_set {α : Type} (l : List α) (n : Nat) (v : α) (h : n < l.length) :
    (l.set n v).take (n + 1) = l.take n ++ [v] := by
  induction l generalizing n with
  | nil => simp at h
  | cons a l ih =>
    cases n with
    | zero => simp
    | succ n =>
      have h' : n < l.length := by simpa using h
      simp [ih n h']

theorem drop_succ_set {α : Type} (l : List α) (n : Nat) (v : α) :
    (l.set n v).drop (n + 1) = l.drop (n + 1) := by
  induction l generalizing n with
  | nil => simp
  | cons a l ih =>
    cases n with
    | zero => simp
    | succ n => simp [ih n]

theorem take_set_self {α : Type} (l : List α) (n : Nat) (v : α) :
    (l.set n v).take n = l.take n := by
  induction l generalizing n with
  | nil => simp
  | cons a l ih =>
    cases n with
    | zero => simp
    | succ n => simp [ih n]

theorem drop_one_rotate {α : Type} (l : List α) (n : Nat) (h : n < l.length) :
    (l.drop n ++ l.take n).drop 1 = l.drop (n + 1) ++ l.take n := by
  have hne : l.drop n ≠ [] := by
    intro h0
    have := congrArg List.length h0
    simp at this
    omega
  obtain ⟨a, t, hat⟩ := List.exists_cons_of_ne_nil hne
  have : l.drop (n + 1) = t := by
    rw [← List.drop_drop 1 n l, hat]; rfl
  rw [hat, this, List.cons_append, List.drop_one, List.tail_cons]

theorem lastN_append_singleton (c : Nat) (values : List ℚ) (v : ℚ) (hc : 0 < c)
    (h : c ≤ values.length) : lastN c (values ++ [v]) = (lastN c values).drop 1 ++ [v] := by
  unfold lastN
  have e : (values ++ [v]).length - c = values.length - c + 1 := by
    simp only [List.length_append, List.length_singleton]; omega
  rw [e, List.drop_drop, List.drop_append_of_le_length (by omega)]

theorem NewRingBuffer_holds (c : Nat) (hc : 0 < c) : (NewRingBuffer c).Holds c [] := by
  unfold RingBuffer.Holds NewRingBuffer
  refine ⟨rfl, by simp, by simp, fun _ => ⟨rfl, by simp⟩, ?_⟩
  intro h
  simp only [List.length_nil] at h
  omega

theorem Add_holds (rb : RingBuffer) (c : Nat) (values : List ℚ) (v : ℚ) (hc : 0 < c)
    (h : rb.Holds c values) : (rb.Add v).Holds c (values ++ [v]) := by
  obtain ⟨hcap, hlen, hsize, hlow, hfull⟩ := h
  by_cases hn : values.length < c
  · obtain ⟨hidx, htake⟩ := hlow hn
    have hsz : rb.size = values.length := by rw [hsize]; omega
    have hadd : rb.Add v
        = { rb with data := rb.data.set rb.size v, size := rb.size + 1 } := by
      unfold RingBuffer.Add
      rw [if_pos (by omega)]
    rw [hadd]
    have htake' : (rb.data.set values.length v).take (values.length + 1) = values ++ [v] := by
      rw [take_succ_set _ _ _ (by omega), htake]
    refine ⟨hcap, by simpa using hlen, ?_, ?_, ?_⟩
    · simp only [List.length_append, List.length_singleton, hsz]; omega
    · intro h2
      simp only [List.length_append, List.length_singleton] at h2 ⊢
      exact ⟨hidx, by rw [hsz]; exact htake'⟩
    · intro h2
      simp only [List.length_append, List.length_singleton] at h2
      have hc' : c = values.length + 1 := by omega
      refine ⟨by simp only [hidx]; exact hc, ?_⟩
      simp only [hidx, List.drop_zero, List.take_zero, List.append_nil, hsz]
      have hl : (rb.data.set values.length v).length = values.length + 1 := by
        simp [hlen, hc']
      rw [← List.take_length (rb.data.set values.length v), hl, htake']
      unfold lastN
      simp [hc']
  · have hn' : c ≤ values.length := by omega
    obtain ⟨hidx, hrot⟩ := hfull hn'
    have hsz : rb.size = c := by rw [hsize]; omega
    have hadd : rb.Add v
        = { rb with data := rb.data.set rb.index v, index := (rb.index + 1) % rb.cap } := by
      unfold RingBuffer.Add
      rw [if_neg (by omega)]
    rw [hadd]
    refine ⟨hcap, by simpa using hlen, ?_, ?_, ?_⟩
    · simp only [List.length_append, List.length_singleton, hsz]; omega
    · intro h2
      simp only [List.length_append, List.length_singleton] at h2
      omega
    · intro _
      simp only [hcap]
      refine ⟨Nat.mod_lt _ hc, ?_⟩
      rw [lastN_append_singleton c values v hc hn', ← hrot,
        drop_one_rotate _ _ (by omega)]
      by_cases hi : rb.index + 1 < c
      · rw [Nat.mod_eq_of_lt hi, drop_succ_set, take_succ_set _ _ _ (by omega),
          List.append_assoc]
      · have hi' : rb.index + 1 = c := by omega
        rw [hi', Nat.mod_self]
        simp only [List.drop_zero, List.take_zero, List.append_nil]
        have hl : (rb.data.set rb.index v).length = rb.index + 1 := by
          simp [hlen, hi']
        rw [← List.take_length (rb.data.set rb.index v), hl,
          take_succ_set _ _ _ (by omega)]
        rw [List.drop_eq_nil_of_le (by omega)]
        rfl

theorem foldl_Add_holds (c : Nat) (hc : 0 < c) (more : List ℚ) :
    ∀ (rb : RingBuffer) (values : List ℚ), rb.Holds c values →
      (more.foldl RingBuffer.Add rb).Holds c (values ++ more) := by
  induction more with
  | nil => intro rb values h; simpa using h
  | cons v more ih =>
    intro rb values h
    have := ih (rb.Add v) (values ++ [v]) (Add_holds rb c values v hc h)
    simpa using this

theorem addAll_holds (c : Nat) (hc : 0 < c) (values : List ℚ) :
    (addAll c values).Holds c values := by
  have := foldl_Add_holds c hc values (NewRingBuffer c) [] (NewRingBuffer_holds c hc)
  simpa using this

theorem Slice_of_holds (rb : RingBuffer) (c : Nat) (values : List ℚ) (hc : 0 < c)
    (h : rb.Holds c values) : rb.Slice = lastN (min values.length c) values := by
  obtain ⟨hcap, hlen, hsize, hlow, hfull⟩ := h
  unfold RingBuffer.Slice
  by_cases h0 : values.length = 0
  · have : values = [] := List.length_eq_zero.mp h0
    subst this
    have : rb.size = 0 := by rw [hsize]; simp
    rw [if_pos this]; simp [lastN]
  · by_cases hn : values.length < c
    · obtain ⟨_, htake⟩ := hlow hn
      have hsz : rb.size = values.length := by rw [hsize]; omega
      rw [if_neg (by omega), if_pos (by omega), hsz, htake]
      unfold lastN
      simp [Nat.min_eq_left (le_of_lt hn)]
    · have hn' : c ≤ values.length := by omega
      obtain ⟨_, hrot⟩ := hfull hn'
      have hsz : rb.size = c := by rw [hsize]; omega
      rw [if_neg (by omega), if_neg (by omega), hrot, Nat.min_eq_right hn']

/-- C9: for every capacity `c > 0` and every sequence of values, after `NewRingBuffer(c)`
and one `Add` per value, `Slice()` is the last `min(n, c)` values in insertion order and
the size is `min(n, c)`. For capacity 5 and 1..7 the slice is 3..7, for capacity 3 and
1..10 it is 8..10, for capacity 5 and 1..3 it is 1..3. -/
theorem RingBuffer_slice_last (c : Nat) (values : List ℚ) (hc : 0 < c) :
    (addAll c values).Slice = values.drop (values.length - min values.length c) ∧
      (addAll c values).size = min values.length c ∧
      (addAll 5 [1, 2, 3, 4, 5, 6, 7]).Slice = [3, 4, 5, 6, 7] ∧
      (addAll 3 [1, 2, 3, 4, 5, 6, 7, 8, 9, 10]).Slice = [8, 9, 10] ∧
      (addAll 5 [1, 2, 3]).Slice = [1, 2, 3] := by
  have h := addAll_holds c hc values
  refine ⟨Slice_of_holds _ c values hc h, h.2.2.1, by decide, by decide, by decide⟩

/-- C9 at capacity 2 with the values 4, 5, 6: the slice is 5, 6 and the size 2. -/
theorem RingBuffer_slice_last_witness :
    0 < 2 ∧ (addAll 2 [4, 5, 6]).Slice = [5, 6] ∧ (addAll 2 [4, 5, 6]).size = 2 :=
  ⟨by decide,
    (RingBuffer_slice_last 2 [4, 5, 6] (by decide)).1,
    (RingBuffer_slice_last 2 [4, 5, 6] (by decide)).2.1⟩

/-! ## Gateway handler: proofs -/

theorem isSpace_digitChar (d : Nat) (h : d < 10) : isSpace (Nat.digitChar d) = false := by
  interval_cases d <;> decide

theorem toDigitsCore_no_space (fuel : Nat) :
    ∀ (n : Nat) (ds : List Char), (∀ c ∈ ds, isSpace c = false) →
      ∀ c ∈ Nat.toDigitsCore 10 fuel n ds, isSpace c = false := by
  induction fuel with
  | zero => intro n ds h; simpa [Nat.toDigitsCore] using h
  | succ fuel ih =>
    intro n ds h
    have hcons : ∀ c ∈ Nat.digitChar (n % 10) :: ds, isSpace c = false := by
      intro c hc
      rcases List.mem_cons.mp hc with rfl | hc
      · exact isSpace_digitChar _ (Nat.mod_lt _ (by decide))
      · exact h c hc
    unfold Nat.toDigitsCore
    simp only []
    split_ifs
    · exact hcons
    · exact ih _ _ hcons

theorem natRepr_no_space (n : Nat) : ∀ c ∈ (Nat.repr n).toList, isSpace c = false := by
  unfold Nat.repr Nat.toDigits
  exact toDigitsCore_no_space _ _ _ (by simp)

theorem intToString_no_space (n : Int) : ∀ c ∈ (toString n).toList, isSpace c = false := by
  cases n with
  | ofNat m => exact natRepr_no_space m
  | negSucc m =>
    intro c hc
    have : toString (Int.negSucc m) = "-" ++ Nat.repr (m + 1) := rfl
    rw [this] at hc
    simp only [String.toList, String.data_append, List.mem_append] at hc
    rcases hc with hc | hc
    · have : c = '-' := by simpa using hc
      subst this; decide
    · exact natRepr_no_space (m + 1) c hc

theorem dropWhile_isSpace_of_no_space (l : List Char) (h : ∀ c ∈ l, isSpace c = false) :
    l.dropWhile isSpace = l := by
  cases l with
  | nil => rfl
  | cons a l => simp [List.dropWhile, h a (List.mem_cons_self _ _)]

theorem TrimSpace_of_no_space (s : String) (h : ∀ c ∈ s.toList, isSpace c = false) :
    TrimSpace s = s := by
  unfold TrimSpace
  rw [dropWhile_isSpace_of_no_space _ h,
    dropWhile_isSpace_of_no_space _ (fun c hc => h c (List.mem_reverse.mp hc)),
    List.reverse_reverse]
  rfl

theorem TrimPrefix_append (pre s : String) : TrimPrefix (pre ++ s) pre = s := by
  unfold TrimPrefix HasPrefix
  have hp : pre.toList.isPrefixOf (pre ++ s).toList = true := by
    simp [String.toList, String.data_append]
  rw [if_pos hp]
  simp [String.toList, String.data_append]

theorem taskID_no_space (n : Int) : ∀ c ∈ ("tsk_" ++ toString n).toList, isSpace c = false := by
  intro c hc
  simp only [String.toList, String.data_append, List.mem_append] at hc
  rcases hc with hc | hc
  · have : c = 't' ∨ c = 's' ∨ c = 'k' ∨ c = '_' := by simpa using hc
    rcases this with rfl | rfl | rfl | rfl <;> decide
  · exact intToString_no_space n c hc

theorem taskID_ne_empty (n : Int) : "tsk_" ++ toString n ≠ "" := by
  intro h
  have := congrArg String.length h
  simp only [String.length_append] at this
  have h4 : "tsk_".length = 4 := by decide
  have h0 : "".length = 0 := by decide
  omega

/-! ## Task store: proofs -/

/-- Looking up the identifier of a task appended at the end finds the earlier task with
that identifier when there is one, and the appended task otherwise. -/
theorem getLoop_append (id : String) (t : Task) (h : t.ID = id) (l : List Task) :
    getLoop id (l ++ [t]) = if (getLoop id l).2 = true then getLoop id l else (t, true) := by
  induction l with
  | nil => simp [getLoop, h]
  | cons x l ih =>
    by_cases hx : x.ID = id
    · simp [getLoop, hx]
    · simp only [List.cons_append, getLoop, hx, if_false]
      exact ih

theorem getLoop_not_found (id : String) (l : List Task) (h : ∀ x ∈ l, x.ID ≠ id) :
    getLoop id l = (zeroTask, false) := by
  induction l with
  | nil => rfl
  | cons x l ih =>
    have hx : x.ID ≠ id := h x (List.mem_cons_self _ _)
    simp only [getLoop, hx, if_false]
    exact ih (fun y hy => h y (List.mem_cons_of_mem _ hy))

theorem getLoop_found_id (id : String) (l : List Task) (h : (getLoop id l).2 = true) :
    (getLoop id l).1.ID = id := by
  induction l with
  | nil => simp [getLoop] at h
  | cons x l ih =>
    by_cases hx : x.ID = id
    · simp [getLoop, hx]
    · simp only [getLoop, hx, if_false] at h ⊢
      exact ih h

/-- C10, as stated, fails: two tasks created at the same clock reading get the same
identifier, and `get` on the identifier of the second returns the first. -/
theorem taskStore_add_get_counterexample :
    ((taskStore.mk []).add "a" 5 5).2 = taskStore.mk [⟨"tsk_5", "a", "queued", 5⟩] ∧
      ((taskStore.mk [⟨"tsk_5", "a", "queued", 5⟩]).add "b" 5 6).1
        = ⟨"tsk_5", "b", "queued", 6⟩ ∧
      ((taskStore.mk [⟨"tsk_5", "a", "queued", 5⟩]).add "b" 5 6).2.get
          ((taskStore.mk [⟨"tsk_5", "a", "queued", 5⟩]).add "b" 5 6).1.ID
        = (⟨"tsk_5", "a", "queued", 5⟩, true) ∧
      ((taskStore.mk [⟨"tsk_5", "a", "queued", 5⟩]).add "b" 5 6).2.get
          ((taskStore.mk [⟨"tsk_5", "a", "queued", 5⟩]).add "b" 5 6).1.ID
        ≠ (((taskStore.mk [⟨"tsk_5", "a", "queued", 5⟩]).add "b" 5 6).1, true) ∧
      handleTaskByID ((taskStore.mk [⟨"tsk_5", "a", "queued", 5⟩]).add "b" 5 6).2 "GET"
          "/api/v1/tasks/tsk_5"
        = { statusCode := 200, body := Body.task ⟨"tsk_5", "a", "queued", 5⟩ } := by
  decide

/-- C10, amended: for every store state, task type and clock readings, if `add` returns
the task `t` then `get(t.ID)` on the new store returns found = true with a task whose
identifier is `t.ID`, so that `GET /api/v1/tasks/{t.ID}` answers 200 with that task; it is
`t` itself when no task already in the store has that identifier, and otherwise the task
the old store already returned for it. -/
theorem taskStore_add_get (s s' : taskStore) (taskType : String) (idClock createdClock : Int)
    (t : Task) (hadd : s.add taskType idClock createdClock = (t, s')) :
    (s'.get t.ID).2 = true ∧
      (s'.get t.ID).1.ID = t.ID ∧
      ((∀ x ∈ s.tasks, x.ID ≠ t.ID) → s'.get t.ID = (t, true)) ∧
      ((s.get t.ID).2 = true → s'.get t.ID = s.get t.ID) ∧
      handleTaskByID s' "GET" ("/api/v1/tasks/" ++ t.ID)
        = { statusCode := 200, body := Body.task (s'.get t.ID).1 } := by
  have ht : t = ⟨"tsk_" ++ toString idClock, taskType, "queued", createdClock⟩ :=
    (congrArg Prod.fst hadd).symm
  have hs' : s' = { tasks := s.tasks ++ [t] } := by
    rw [ht]; exact (congrArg Prod.snd hadd).symm
  have hid : t.ID = "tsk_" ++ toString idClock := by rw [ht]
  have hget : s'.get t.ID = getLoop t.ID (s.tasks ++ [t]) := by rw [hs']; rfl
  have key := getLoop_append t.ID t rfl s.tasks
  have hfound : (s'.get t.ID).2 = true := by
    rw [hget, key]
    split_ifs with h
    · exact h
    · rfl
  refine ⟨hfound, ?_, ?_, ?_, ?_⟩
  · rw [hget, key]
    split_ifs with h
    · exact getLoop_found_id _ _ h
    · rfl
  · intro hne
    rw [hget, key, getLoop_not_found _ _ hne]
    simp
  · intro hold
    have : (getLoop t.ID s.tasks).2 = true := hold
    rw [hget, key, if_pos this]
    rfl
  · have htrim : TrimSpace (TrimPrefix ("/api/v1/tasks/" ++ t.ID) "/api/v1/tasks/") = t.ID := by
      rw [TrimPrefix_append, hid]
      exact TrimSpace_of_no_space _ (taskID_no_space idClock)
    have hne : t.ID ≠ "" := by rw [hid]; exact taskID_ne_empty idClock
    unfold handleTaskByID
    simp only [ne_eq, not_true_eq_false, if_false, htrim, hne]
    cases hres : s'.get t.ID with
    | mk item found =>
      have : found = true := by simpa [hres] using hfound
      subst this
      rfl

/-- C10, amended, at concrete stores: into a store holding "tsk_5" a task created at clock
reading 7 is found back as itself, and one created at clock reading 5 finds the old one;
both requests answer 200. -/
theorem taskStore_add_get_witness :
    (taskStore.mk [⟨"tsk_5", "a", "queued", 5⟩]).add "b" 7 8
        = (⟨"tsk_7", "b", "queued", 8⟩,
            taskStore.mk [⟨"tsk_5", "a", "queued", 5⟩, ⟨"tsk_7", "b", "queued", 8⟩]) ∧
      (∀ x ∈ (taskStore.mk [⟨"tsk_5", "a", "queued", 5⟩]).tasks, x.ID ≠ "tsk_7") ∧
      (taskStore.mk [⟨"tsk_5", "a", "queued", 5⟩, ⟨"tsk_7", "b", "queued", 8⟩]).get "tsk_7"
        = (⟨"tsk_7", "b", "queued", 8⟩, true) ∧
      handleTaskByID
          (taskStore.mk [⟨"tsk_5", "a", "queued", 5⟩, ⟨"tsk_7", "b", "queued", 8⟩])
          "GET" "/api/v1/tasks/tsk_7"
        = { statusCode := 200, body := Body.task ⟨"tsk_7", "b", "queued", 8⟩ } ∧
      handleTaskByID
          (taskStore.mk [⟨"tsk_5", "a", "queued", 5⟩, ⟨"tsk_5", "b", "queued", 6⟩])
          "GET" "/api/v1/tasks/tsk_5"
        = { statusCode := 200, body := Body.task ⟨"tsk_5", "a", "queued", 5⟩ } :=
  ⟨by decide, by decide,
    (taskStore_add_get (taskStore.mk [⟨"tsk_5", "a", "queued", 5⟩])
      (taskStore.mk [⟨"tsk_5", "a", "queued", 5⟩, ⟨"tsk_7", "b", "queued", 8⟩])
      "b" 7 8 ⟨"tsk_7", "b", "queued", 8⟩ (by decide)).2.2.1 (by decide),
    by decide, by decide⟩

/-! ## `handleTasks`: proofs -/

theorem dropWhile_all_iff (l : List Char) :
    (∀ c ∈ l.dropWhile isSpace, isSpace c = true) ↔ ∀ c ∈ l, isSpace c = true := by
  induction l with
  | nil => simp
  | cons a l ih =>
    by_cases ha : isSpace a = true
    · rw [List.dropWhile_cons_of_pos ha, ih]
      simp [ha]
    · rw [List.dropWhile_cons_of_neg ha]

/-- A string trims to the empty string exactly when all its characters are white space. -/
theorem TrimSpace_eq_empty_iff (s : String) :
    TrimSpace s = "" ↔ ∀ c ∈ s.toList, isSpace c = true := by
  unfold TrimSpace
  have h1 : String.mk ((s.toList.dropWhile isSpace).reverse.dropWhile isSpace).reverse = ""
      ↔ ((s.toList.dropWhile isSpace).reverse.dropWhile isSpace).reverse = [] := by
    constructor
    · intro h; exact congrArg String.data h
    · intro h; rw [h]
  rw [h1, List.reverse_eq_nil_iff, List.dropWhile_eq_nil_iff]
  rw [← dropWhile_all_iff s.toList]
  simp only [List.mem_reverse]

/-- C11: for every POST request whose decoded body has a type that is empty after trimming
(all its characters are white space), `handleTasks` answers 400 with the error code
INVALID_ARGUMENT and leaves the store unchanged; for every type that is non-empty after
trimming it answers 201 with the created task and appends exactly that one task, whose type
is the trimmed type and whose status is "queued". -/
theorem handleTasks_post (store : taskStore) (taskType : String) (idClock createdClock : Int) :
    ((∀ c ∈ taskType.toList, isSpace c = true) ↔ TrimSpace taskType = "") ∧
      (TrimSpace taskType = "" →
        handleTasks store "POST" (some { TaskType := taskType }) idClock createdClock
          = ({ statusCode := 400, body := Body.error "INVALID_ARGUMENT" "type is required" },
              store)) ∧
      (TrimSpace taskType ≠ "" →
        ∃ t : Task,
          handleTasks store "POST" (some { TaskType := taskType }) idClock createdClock
              = ({ statusCode := 201, body := Body.task t }, { tasks := store.tasks ++ [t] }) ∧
            t.TaskType = TrimSpace taskType ∧ t.Status = "queued" ∧
            t.ID = "tsk_" ++ toString idClock ∧ t.CreatedAt = createdClock) := by
  refine ⟨(TrimSpace_eq_empty_iff taskType).symm, ?_, ?_⟩
  · intro h
    simp [handleTasks, h]
  · intro h
    refine ⟨⟨"tsk_" ++ toString idClock, TrimSpace taskType, "queued", createdClock⟩,
      ?_, rfl, rfl, rfl, rfl⟩
    simp [handleTasks, h, taskStore.add]

/-- C11 at concrete requests: the type of the test (empty), a type of blanks only, and a
type with surrounding blanks. -/
theorem handleTasks_post_witness :
    TrimSpace "" = "" ∧
      handleTasks (taskStore.mk []) "POST" (some { TaskType := "" }) 5 6
        = ({ statusCode := 400, body := Body.error "INVALID_ARGUMENT" "type is required" },
            taskStore.mk []) ∧
      handleTasks (taskStore.mk []) "POST" (some { TaskType := "  " }) 5 6
        = ({ statusCode := 400, body := Body.error "INVALID_ARGUMENT" "type is required" },
            taskStore.mk []) ∧
      TrimSpace " clean:dry-run " ≠ "" ∧
      handleTasks (taskStore.mk []) "POST" (some { TaskType := " clean:dry-run " }) 5 6
        = ({ statusCode := 201, body := Body.task ⟨"tsk_5", "clean:dry-run", "queued", 6⟩ },
            taskStore.mk [⟨"tsk_5", "clean:dry-run", "queued", 6⟩]) :=
  ⟨by decide,
    (handleTasks_post (taskStore.mk []) "" 5 6).2.1 (by decide),
    (handleTasks_post (taskStore.mk []) "  " 5 6).2.1 (by decide),
    by decide, by decide⟩

/-! ## Health score: further proofs -/

theorem not_ruleFires_iff (s : MetricsSnapshot) : ¬ ruleFires s ↔ specFiredLabels s = [] := by
  constructor
  · intro h
    unfold ruleFires at h
    simp only [not_or, not_exists, not_and] at h
    obtain ⟨hc, hm, hd, hs⟩ := h
    have hc90 : ¬ s.CPUPercent > 90 := fun h90 => hc (by linarith)
    have hm90 : ¬ s.MemPercent > 90 := fun h90 => hm (by linarith)
    have hnone : firstBreachingDisk s.Disks = none :=
      firstBreachingDisk_eq_none (fun d hd' => not_lt.mp (hd d hd'))
    simp [specFiredLabels, specCpuLabel, specMemLabel, specDiskLabel, specSwapLabel, hc, hm,
      hs, hc90, hm90, hnone]
  · intro h hf
    exact specFiredLabels_ne_nil hf h

theorem not_ruleFires_penalties {s : MetricsSnapshot} (h : ¬ ruleFires s) :
    penalties s = (100, []) := by
  have hl := (not_ruleFires_iff s).mp h
  unfold ruleFires at h
  simp only [not_or, not_exists, not_and] at h
  obtain ⟨hc, hm, hd, hs⟩ := h
  have hc90 : ¬ s.CPUPercent > 90 := fun h90 => hc (by linarith)
  have hm90 : ¬ s.MemPercent > 90 := fun h90 => hm (by linarith)
  have hnone : firstBreachingDisk s.Disks = none :=
    firstBreachingDisk_eq_none (fun d hd' => not_lt.mp (hd d hd'))
  rw [penalties_eq, hl]
  simp [specCpuPenalty, specMemPenalty, specDiskPenalty, specSwapPenalty, hc, hm, hs, hc90,
    hm90, hnone]

theorem not_ruleFires_result {s : MetricsSnapshot} (h : ¬ ruleFires s) :
    calculateHealthScore s = (100, "Excellent") := by
  rw [calculateHealthScore_eq, not_ruleFires_penalties h]
  decide

theorem ruleFires_score_lt {s : MetricsSnapshot} (h : ruleFires s) :
    (calculateHealthScore s).1 < 100 := by
  rw [calculateHealthScore_fst, penalties_fst]
  have h1 := specCpuPenalty_bounds s
  have h2 := specMemPenalty_bounds s
  have h3 := specDiskPenalty_bounds s
  have h4 := specSwapPenalty_bounds s
  rcases h with h | h | h | h
  · have : 15 ≤ specCpuPenalty s := by
      unfold specCpuPenalty
      split_ifs <;> decide
    linarith [h2.1, h3.1, h4.1]
  · have : 12 ≤ specMemPenalty s := by
      unfold specMemPenalty
      split_ifs <;> decide
    linarith [h1.1, h3.1, h4.1]
  · have hsome := (firstBreachingDisk_isSome_iff s.Disks).mpr h
    obtain ⟨d, hd⟩ := Option.isSome_iff_exists.mp hsome
    have : 10 ≤ specDiskPenalty s := by
      unfold specDiskPenalty
      rw [hd]
      simp only []
      split_ifs <;> decide
    linarith [h1.1, h2.1, h4.1]
  · have : specSwapPenalty s = 10 := by
      unfold specSwapPenalty
      rw [if_pos h]
    linarith [h1.1, h2.1, h3.1]

theorem intercalate_go_data (sep : String) (rest : List String) :
    ∀ acc : String, ∃ tl : List Char,
      (String.intercalate.go acc sep rest).data = acc.data ++ tl := by
  induction rest with
  | nil => intro acc; exact ⟨[], by simp [String.intercalate.go]⟩
  | cons a rest ih =>
    intro acc
    obtain ⟨tl, htl⟩ := ih (acc ++ sep ++ a)
    refine ⟨sep.data ++ a.data ++ tl, ?_⟩
    rw [String.intercalate.go, htl]
    simp [String.data_append, List.append_assoc]

/-- A joined message starts with the characters of its first label. -/
theorem intercalate_cons_data (sep a : String) (rest : List String) :
    ∃ tl : List Char, (sep.intercalate (a :: rest)).data = a.data ++ tl := by
  rw [String.intercalate]
  exact intercalate_go_data sep rest a

/-- Every label of the table starts with "Hi", "El" or "Di". -/
theorem specFiredLabels_start (s : MetricsSnapshot) :
    ∀ l ∈ specFiredLabels s, ∃ tl : List Char,
      l.data = 'H' :: 'i' :: tl ∨ l.data = 'E' :: 'l' :: tl ∨ l.data = 'D' :: 'i' :: tl := by
  intro l hl
  simp only [specFiredLabels, List.mem_append, Option.mem_toList, Option.mem_def] at hl
  rcases hl with ((hl | hl) | hl) | hl
  · unfold specCpuLabel at hl
    split_ifs at hl <;> cases hl
    · exact ⟨"gh CPU".data, Or.inl rfl⟩
    · exact ⟨"evated CPU".data, Or.inr (Or.inl rfl)⟩
  · unfold specMemLabel at hl
    split_ifs at hl <;> cases hl
    · exact ⟨"gh Memory".data, Or.inl rfl⟩
    · exact ⟨"evated Memory".data, Or.inr (Or.inl rfl)⟩
  · unfold specDiskLabel at hl
    cases hd : firstBreachingDisk s.Disks with
    | none => simp [hd] at hl
    | some d =>
      rw [hd] at hl
      simp only [Option.map_some', Option.some.injEq] at hl
      subst hl
      split_ifs
      · exact ⟨("sk " ++ d.Device ++ " Critical").data, Or.inr (Or.inr (by
          simp [String.data_append]))⟩
      · exact ⟨("sk " ++ d.Device ++ " Low").data, Or.inr (Or.inr (by
          simp [String.data_append]))⟩
  · unfold specSwapLabel at hl
    split_ifs at hl
    cases hl
    exact ⟨"gh Swap".data, Or.inl rfl⟩

/-- When a rule fires, the message starts with "Hi", "El" or "Di". -/
theorem ruleFires_message_start {s : MetricsSnapshot} (h : ruleFires s) :
    ∃ tl : List Char,
      (calculateHealthScore s).2.data = 'H' :: 'i' :: tl ∨
        (calculateHealthScore s).2.data = 'E' :: 'l' :: tl ∨
        (calculateHealthScore s).2.data = 'D' :: 'i' :: tl := by
  have hne := specFiredLabels_ne_nil h
  obtain ⟨a, rest, hcons⟩ := List.exists_cons_of_ne_nil hne
  have hmsg : (calculateHealthScore s).2 = ", ".intercalate (a :: rest) := by
    rw [calculateHealthScore_eq]
    simp only [penalties_snd, healthMessage, hcons]
    rw [if_pos (by simp)]
  obtain ⟨tl, htl⟩ := intercalate_cons_data ", " a rest
  obtain ⟨tl', ha⟩ := specFiredLabels_start s a (by rw [hcons]; exact List.mem_cons_self _ _)
  refine ⟨tl' ++ tl, ?_⟩
  rw [hmsg, htl]
  rcases ha with ha | ha | ha
  · exact Or.inl (by rw [ha]; rfl)
  · exact Or.inr (Or.inl (by rw [ha]; rfl))
  · exact Or.inr (Or.inr (by rw [ha]; rfl))

/-- A message that starts with "Hi", "El" or "Di" is none of the bucket messages. -/
theorem not_bucket_of_start {msg : String} {tl : List Char}
    (h : msg.data = 'H' :: 'i' :: tl ∨ msg.data = 'E' :: 'l' :: tl ∨
      msg.data = 'D' :: 'i' :: tl) :
    msg ≠ "Excellent" ∧ msg ≠ "Good" ∧ msg ≠ "Fair" ∧ msg ≠ "Poor" := by
  refine ⟨?_, ?_, ?_, ?_⟩ <;>
  · intro hm
    subst hm
    rcases h with h | h | h <;>
    · have h1 := congrArg (fun l => l.take 2) h
      simp only [List.take_succ_cons, List.take_zero] at h1
      revert h1
      decide

/-- C12: when every probe invoked by `Collect` fails, the returned snapshot has every metric
field at its zero value, health score 100 and health message "Excellent"; and any snapshot
with CPU, memory and swap percent zero and no disks scores 100 / "Excellent". -/
theorem Collect_total_failure (p : Probes) (s : MetricsSnapshot) :
    (p.hostInfo = none → p.cpuInfo = none → p.cpuPercent = none → p.cpuPerCore = none →
        p.virtualMemory = none → p.swapMemory = none → p.partitions = none →
        p.ioCounters = none → p.processes = none →
        Collect p = { zeroSnapshot with
          CollectedAt := p.now, HealthScore := 100, HealthMessage := "Excellent" }) ∧
      (s.CPUPercent = 0 → s.MemPercent = 0 → s.SwapPercent = 0 → s.Disks = [] →
        calculateHealthScore s = (100, "Excellent")) := by
  constructor
  · intro h1 h2 h3 h4 h5 h6 h7 h8 h9
    have hspec : specSnapshot p = { zeroSnapshot with CollectedAt := p.now } := by
      simp only [specSnapshot, h1, h2, h3, h4, h5, h6, h7, h8, h9]
      rfl
    rw [Collect_eq, hspec]
    have hscore : calculateHealthScore { zeroSnapshot with CollectedAt := p.now }
        = (100, "Excellent") :=
      (calculateHealthScore_congr rfl rfl rfl rfl).trans
        (show calculateHealthScore zeroSnapshot = (100, "Excellent") by decide)
    rw [hscore]
  · intro hc hm hs hd
    apply not_ruleFires_result
    unfold ruleFires
    rw [hc, hm, hs, hd]
    simp only [not_or, not_exists, not_and]
    refine ⟨by decide, by decide, ?_, by decide⟩
    intro d hd'
    simp at hd'

/-- C12 at concrete inputs: probe outcomes in which every probe fails, and the snapshot
with all scored inputs zero. -/
theorem Collect_total_failure_witness :
    Collect { now := 1700000000, numCPU := 8, hostInfo := none, cpuInfo := none,
              cpuPercent := none, cpuPerCore := none, virtualMemory := none,
              swapMemory := none, partitions := none, diskUsage := fun _ => none,
              ioCounters := none, processes := none }
        = { zeroSnapshot with
            CollectedAt := 1700000000, HealthScore := 100, HealthMessage := "Excellent" } ∧
      calculateHealthScore (scoredSnapshot 0 0 0 []) = (100, "Excellent") :=
  ⟨(Collect_total_failure
      { now := 1700000000, numCPU := 8, hostInfo := none, cpuInfo := none,
        cpuPercent := none, cpuPerCore := none, virtualMemory := none,
        swapMemory := none, partitions := none, diskUsage := fun _ => none,
        ioCounters := none, processes := none } zeroSnapshot).1 rfl rfl rfl rfl rfl rfl rfl rfl rfl,
    (Collect_total_failure
      { now := 0, numCPU := 0, hostInfo := none, cpuInfo := none,
        cpuPercent := none, cpuPerCore := none, virtualMemory := none,
        swapMemory := none, partitions := none, diskUsage := fun _ => none,
        ioCounters := none, processes := none } (scoredSnapshot 0 0 0 [])).2 rfl rfl rfl rfl⟩

/-- C13: for every snapshot the total penalty applied by `calculateHealthScore` is at most
85, the returned score is at least 15, and the clamp `if score < 0` never changes the
score: the score before the clamp is already at least 15, so the condition is false for
every snapshot. The bound 15 is attained. -/
theorem calculateHealthScore_penalty_bound (s : MetricsSnapshot) :
    100 - (penalties s).1 ≤ 85 ∧
      15 ≤ (calculateHealthScore s).1 ∧
      15 ≤ (penalties s).1 ∧
      clampScore (penalties s).1 = (penalties s).1 ∧
      (calculateHealthScore (scoredSnapshot 95 95 90 [diskOf "X" 97])).1 = 15 := by
  have h := penalties_fst_bounds s
  refine ⟨by omega, ?_, h.1, clampScore_penalties s, by decide⟩
  rw [calculateHealthScore_fst]
  exact h.1

/-- C14: for every snapshot, whatever the device names, `calculateHealthScore` returns the
message "Excellent" exactly when no penalty rule fired, which is exactly when the score is
100; the messages "Good", "Fair" and "Poor" are never returned. -/
theorem calculateHealthScore_excellent_iff (s : MetricsSnapshot) :
    ((calculateHealthScore s).2 = "Excellent" ↔ ¬ ruleFires s) ∧
      (¬ ruleFires s ↔ (calculateHealthScore s).1 = 100) ∧
      (calculateHealthScore s).2 ≠ "Good" ∧
      (calculateHealthScore s).2 ≠ "Fair" ∧
      (calculateHealthScore s).2 ≠ "Poor" := by
  by_cases h : ruleFires s
  · obtain ⟨tl, hstart⟩ := ruleFires_message_start h
    obtain ⟨hE, hG, hF, hP⟩ := not_bucket_of_start hstart
    have hlt := ruleFires_score_lt h
    refine ⟨⟨fun he => absurd he hE, fun hn => absurd h hn⟩,
      ⟨fun hn => absurd h hn, fun h100 => by omega⟩, hG, hF, hP⟩
  · have hres := not_ruleFires_result h
    refine ⟨⟨fun _ => h, fun _ => by rw [hres]⟩, ⟨fun _ => by rw [hres], fun _ => h⟩, ?_, ?_, ?_⟩
      <;> (rw [hres]; decide)

end Mole
